import Mathlib

/-!
# Verification of the Conversational Context & Value-Arbitration Engine

A shallow embedding, in Lean 4, of the parts of the TypeScript source that the
specification's testable properties talk about:

* the value hierarchy and contextual value applicability engine
  (`src/lib/capacities/value-grounding/contextual-value-applicability.ts`);
* the rule-based intention detector (`src/lib/understanding/intention-detector.ts`);
* the overlap-resolution pass of the entity recognizer
  (`src/lib/understanding/entity-recognizer.ts`);
* the working memory (`WorkingMemory` class);
* the interaction pattern tracker (`src/lib/patterns/interaction-pattern-tracker.ts`);
* intention aging (`IntentionRecognizer.updateIntentionLifespans`) and entity
  salience decay (`EntityTracker.cleanupStaleEntities`).

Conventions of the embedding:
* JavaScript numbers are modelled as rationals (`ℚ`); timestamps as `Nat`.
* JavaScript `Map` objects are modelled as association lists in insertion
  order, with first-match lookup and replace-in-place `set` (the iteration
  order and overwrite semantics of a JS `Map`).
* A JS value that the source guards with a truthiness check (e.g.
  `context.conversationState && ...`) is modelled as an `Option`.
* Methods that mutate `this` become functions from state to state; every call
  of `Date.now()` is replaced by an explicit `now : Nat` parameter.
* JS regular-expression tests that the source applies to free-form text are
  not re-implemented; where a claim is insensitive to which regexs fire, the
  regex test is a parameter (`rx`) of the embedded function, and theorems are
  proved for every such oracle.  Keyword matching (`\b<kw>\b`), substring
  search (`String.includes`) and lower-casing are implemented directly.
-/

/-! ## Generic string and association-list helpers -/

/-- `max 0 (min 1 q)`: the `Math.max(0, Math.min(1, score))` clamp. -/
def clamp01 (q : ℚ) : ℚ := max 0 (min 1 q)

/-- Try to strip `needle` from the front of `hay`; return the remainder. -/
def chopChars : List Char → List Char → Option (List Char)
  | [], rest => some rest
  | _ :: _, [] => none
  | n :: ns, c :: cs => if n = c then chopChars ns cs else none

/-- Does `needle` occur as a contiguous sublist of `hay`?  (JS `String.includes`.) -/
def occursChars (needle : List Char) : List Char → Bool
  | [] => (chopChars needle []).isSome
  | c :: t => (chopChars needle (c :: t)).isSome || occursChars needle t

/-- JS `hay.includes(needle)`. -/
def occursInStr (needle hay : String) : Bool := occursChars needle.toList hay.toList

/-- Word characters of the JS `\b` boundary class. -/
def isWordChar (c : Char) : Bool := c.isAlphanum || c = '_'

/-- Scan for `kw` at a position preceded by a non-word character (or the start),
and followed by a non-word character (or the end).  `prevW` records whether the
previous character was a word character. -/
def wholeWordFrom (kw : List Char) : List Char → Bool → Bool
  | [], _ => false
  | c :: t, prevW =>
    (!prevW &&
      (match chopChars kw (c :: t) with
       | some [] => true
       | some (r :: _) => !isWordChar r
       | none => false))
    || wholeWordFrom kw t (isWordChar c)

/-- JS `new RegExp("\\b" + kw + "\\b").test(text)` for a keyword that starts and
ends with word characters (all keywords in the source do). -/
def hasWholeWord (kw text : String) : Bool := wholeWordFrom kw.toList text.toList false

/-- JS `toLowerCase`, implemented characterwise (kernel-reducible). -/
def toLowerStr (s : String) : String := String.mk (s.toList.map Char.toLower)

/-- JS `trim`, implemented on the character list. -/
def trimStr (s : String) : String :=
  String.mk (((s.toList.dropWhile Char.isWhitespace).reverse.dropWhile
    Char.isWhitespace).reverse)

/-- JS `text.endsWith('?')`. -/
def endsWithQmark (s : String) : Bool :=
  match s.toList.getLast? with
  | some c => c == '?'
  | none => false

/-- First-match association-list lookup (JS `Map.get`). -/
def lookupA {κ β : Type} [BEq κ] (l : List (κ × β)) (k : κ) : Option β :=
  (l.find? (fun p => p.1 == k)).map (·.2)

/-- JS `Map.set`: overwrite in place if the key exists, else append. -/
def setA {κ β : Type} [BEq κ] (l : List (κ × β)) (k : κ) (v : β) : List (κ × β) :=
  if l.any (fun p => p.1 == k) then l.map (fun p => if p.1 == k then (k, v) else p)
  else l ++ [(k, v)]

/-! ## Data model of the value-grounding capacity (`types.ts`)

`Context`, `ConversationState`, `UserIntention`, `Message`, `CoreValue` and
`ValueManifestation` as used by `ValueHierarchy` and
`ContextualValueApplicability`.  Only the fields the embedded code reads are
carried.  `Message.content` is `Option String`: `none` models a non-string
content (the source guards every read with `typeof content === 'string'`). -/

structure CEntity where
  id : String
  name : String
  etype : String
deriving DecidableEq, Repr

structure UserIntention where
  id : String
  utype : String
  confidence : ℚ
  status : String
  firstDetected : Nat
  lastDetected : Nat
  relatedEntities : List String
deriving DecidableEq, Repr

structure ConvState where
  activeTopics : List String
  recentSentiment : ℚ
deriving DecidableEq, Repr

structure Msg where
  content : Option String
deriving DecidableEq, Repr

structure Context where
  entities : List CEntity
  userIntentions : List UserIntention
  conversationState : Option ConvState
  recentMessages : List Msg
deriving DecidableEq, Repr

structure ValueManifestation where
  context : String
  behavior : String
deriving DecidableEq, Repr

structure CoreValue where
  id : String
  description : String
  importance : ℚ
  manifestations : List ValueManifestation
deriving DecidableEq, Repr

/-- `context.userIntentions.some(i => types.some(t => i.type.includes(t)))`. -/
def hasIntentionOfType (ctx : Context) (types : List String) : Bool :=
  ctx.userIntentions.any fun it => types.any fun ty => occursInStr ty it.utype

/-- The sensitive-topic gazetteer shared by both value engines. -/
def sensitiveTopics : List String :=
  ["health", "politics", "religion", "finance", "personal crisis"]

/-! ## The core value set (`core-values.ts`) -/

def humanAgencyManifestations : List ValueManifestation :=
  [⟨"information_sharing", "Present information clearly without manipulation or bias"⟩,
   ⟨"decision_making", "Provide options with transparent pros and cons, never pushing a single choice"⟩,
   ⟨"disagreement", "Respect the user\x27s right to disagree and maintain their own perspective"⟩,
   ⟨"system_functionality", "Provide clear explanations of system capabilities and limitations"⟩,
   ⟨"persuasion", "Never use manipulative tactics to influence user decisions"⟩]

def truthfulnessManifestations : List ValueManifestation :=
  [⟨"knowledge_sharing", "Acknowledge uncertainty and limitations in knowledge"⟩,
   ⟨"factual_claims", "Verify claims before presenting them as facts"⟩,
   ⟨"mistake_handling", "Acknowledge and correct mistakes promptly"⟩,
   ⟨"source_attribution", "Clearly attribute information to sources when appropriate"⟩,
   ⟨"speculation", "Clearly distinguish between facts and speculation or opinion"⟩]

def wellbeingManifestations : List ValueManifestation :=
  [⟨"emotional_support", "Respond with empathy to emotional expressions"⟩,
   ⟨"sensitive_topics", "Approach sensitive topics with care and respect"⟩,
   ⟨"harmful_requests", "Decline requests that could cause harm"⟩,
   ⟨"user_frustration", "Acknowledge frustration and work toward resolution"⟩,
   ⟨"continuous_engagement", "Respect cognitive and emotional energy, avoiding overwhelming interactions"⟩]

def privacyManifestations : List ValueManifestation :=
  [⟨"data_collection", "Be transparent about what data is collected and how it\x27s used"⟩,
   ⟨"personal_information", "Never pressure users to share unnecessary personal information"⟩,
   ⟨"security_practices", "Promote secure practices without causing undue fear"⟩,
   ⟨"data_sharing", "Never share user data with external systems without explicit permission"⟩,
   ⟨"local_first", "Prioritize local processing and storage when possible"⟩]

def inclusivityManifestations : List ValueManifestation :=
  [⟨"language_use", "Use inclusive, non-discriminatory language"⟩,
   ⟨"diverse_perspectives", "Consider and represent diverse perspectives"⟩,
   ⟨"accessibility", "Ensure interactions are accessible to users with varying abilities"⟩,
   ⟨"cultural_awareness", "Demonstrate cultural awareness and sensitivity"⟩,
   ⟨"bias_mitigation", "Actively work to identify and mitigate biases in responses"⟩]

def authenticityManifestations : List ValueManifestation :=
  [⟨"identity", "Be transparent about being an AI system"⟩,
   ⟨"capabilities", "Be honest about capabilities and limitations"⟩,
   ⟨"reasoning", "Provide genuine reasoning rather than made-up explanations"⟩,
   ⟨"engagement", "Engage in genuine dialogue rather than scripted responses"⟩,
   ⟨"uncertainty", "Express genuine uncertainty rather than false confidence"⟩]

def humanAgencyValue : CoreValue :=
  ⟨"human_agency", "Respect and enhance the user\x27s autonomy and decision-making power",
   95/100, humanAgencyManifestations⟩

def truthfulnessValue : CoreValue :=
  ⟨"truthfulness", "Present accurate information and acknowledge limitations and uncertainty",
   9/10, truthfulnessManifestations⟩

def userWellbeingValue : CoreValue :=
  ⟨"user_wellbeing", "Prioritize the psychological and emotional wellbeing of users",
   85/100, wellbeingManifestations⟩

def privacySecurityValue : CoreValue :=
  ⟨"privacy_security", "Respect user privacy and promote data security",
   8/10, privacyManifestations⟩

def inclusivityValue : CoreValue :=
  ⟨"inclusivity", "Ensure interactions are inclusive and accessible to all users",
   75/100, inclusivityManifestations⟩

def authenticityValue : CoreValue :=
  ⟨"authenticity", "Engage in genuine, non-deceptive interactions",
   7/10, authenticityManifestations⟩

def coreValues : List CoreValue :=
  [humanAgencyValue, truthfulnessValue, userWellbeingValue,
   privacySecurityValue, inclusivityValue, authenticityValue]

/-! ## `ValueHierarchy` (conflict resolution between values)

`customPriorities` is a `Map valueId → Map valueId → Map contextKey → number`.
A context key is either the literal `'default'` (modelled `none`) or a
JSON-serialised context pattern (modelled `some pat`); `matchesContextPattern`
compares each field named by the pattern with the corresponding context field
by JSON-stringify equality, which for our representable values is structural
equality. -/

structure CtxPattern where
  entities : Option (List CEntity) := none
  userIntentions : Option (List UserIntention) := none
  conversationState : Option ConvState := none
  recentMessages : Option (List Msg) := none
deriving DecidableEq, Repr

structure ValueHierarchy where
  values : List (String × CoreValue)
  customPriorities : List (String × List (String × List (Option CtxPattern × ℚ)))
deriving Repr

namespace ValueHierarchy

/-- The constructor: `coreValues.forEach(v => this.values.set(v.id, v))`. -/
def ofValues (vs : List CoreValue) : ValueHierarchy :=
  ⟨vs.foldl (fun acc v => setA acc v.id v) [], []⟩

/-- `matchesContextPattern` of `ValueHierarchy`: every key present in the
pattern must be stringify-equal to the context's field. -/
def matchesContextPattern (ctx : Context) (p : CtxPattern) : Bool :=
  (match p.entities with | none => true | some v => ctx.entities == v) &&
  (match p.userIntentions with | none => true | some v => ctx.userIntentions == v) &&
  (match p.conversationState with | none => true | some v => ctx.conversationState == some v) &&
  (match p.recentMessages with | none => true | some v => ctx.recentMessages == v)

/-- First non-`'default'` entry whose pattern matches the context. -/
def findPatternPriority (ctx : Context) : List (Option CtxPattern × ℚ) → Option ℚ
  | [] => none
  | (none, _) :: t => findPatternPriority ctx t
  | (some p, pr) :: t =>
    if matchesContextPattern ctx p then some pr else findPatternPriority ctx t

/-- `getCustomPriorityInContext`: specific context patterns first, then the
`'default'` entry, else `0`. -/
def getCustomPriorityInContext (h : ValueHierarchy) (v1Id v2Id : String) (ctx : Context) : ℚ :=
  match lookupA h.customPriorities v1Id with
  | none => 0
  | some m1 =>
    match lookupA m1 v2Id with
    | none => 0
    | some cmap =>
      match findPatternPriority ctx cmap with
      | some pr => pr
      | none =>
        match lookupA cmap (none : Option CtxPattern) with
        | some d => d
        | none => 0

/-- `setCustomPriority`; `none` when one of the value ids is unknown (the
source throws). -/
def setCustomPriority (h : ValueHierarchy) (v1Id v2Id : String) (priorityFactor : ℚ)
    (contextPattern : Option CtxPattern) : Option ValueHierarchy :=
  if (lookupA h.values v1Id).isSome && (lookupA h.values v2Id).isSome then
    let value1Map := (lookupA h.customPriorities v1Id).getD []
    let contextMap := (lookupA value1Map v2Id).getD []
    let contextMap' := setA contextMap contextPattern priorityFactor
    let cps := setA h.customPriorities v1Id (setA value1Map v2Id contextMap')
    some { h with customPriorities := cps }
  else none

/-- `getManifestationContextRelevance`: the switch over manifestation context
tags.  Cases that `break` fall through to the final `return 0`; the `default`
case returns `0.4` when some recent message mentions the tag, else `0.1`. -/
def getManifestationContextRelevance (m : ValueManifestation) (ctx : Context) : ℚ :=
  if m.context = "information_sharing" then
    if hasIntentionOfType ctx ["query", "inquiry", "information_request"] then 9/10 else 0
  else if m.context = "decision_making" then
    if hasIntentionOfType ctx ["decision", "choice", "selection"] then 1 else 0
  else if m.context = "disagreement" then
    match ctx.conversationState with
    | some cs => if cs.recentSentiment < -(3/10) then 8/10 else 0
    | none => 0
  else if m.context = "emotional_support" then
    match ctx.conversationState with
    | some cs => if cs.recentSentiment < -(1/2) then 9/10 else 0
    | none => 0
  else if m.context = "sensitive_topics" then
    match ctx.conversationState with
    | some cs =>
      if cs.activeTopics.any (fun topic => sensitiveTopics.any (fun s => occursInStr s topic))
      then 7/10 else 0
    | none => 0
  else if m.context = "knowledge_sharing" then
    if hasIntentionOfType ctx ["question", "factual_query", "explanation_request"] then 8/10 else 0
  else
    if ctx.recentMessages.any (fun msg =>
        match msg.content with
        | some c => occursInStr (toLowerStr m.context) (toLowerStr c)
        | none => false)
    then 4/10 else 1/10

/-- `getValueApplicability`: base `0.5`, raised to `0.5 + relevance·0.5` by
every manifestation with positive context relevance. -/
def getValueApplicability (v : CoreValue) (ctx : Context) : ℚ :=
  v.manifestations.foldl
    (fun applicability m =>
      let r := getManifestationContextRelevance m ctx
      if r > 0 then max applicability (1/2 + r * (1/2)) else applicability)
    (1/2)

/-- `resolveConflict`: custom priority, then applicability difference `> 0.3`,
then base importance. -/
def resolveConflict (h : ValueHierarchy) (value1 value2 : CoreValue) (ctx : Context) : CoreValue :=
  let customPriority := getCustomPriorityInContext h value1.id value2.id ctx
  if customPriority ≠ 0 then
    if customPriority > 0 then value1 else value2
  else
    let a1 := getValueApplicability value1 ctx
    let a2 := getValueApplicability value2 ctx
    let applicabilityDifference := a1 - a2
    if |applicabilityDifference| > 3/10 then
      if applicabilityDifference > 0 then value1 else value2
    else
      if value1.importance ≥ value2.importance then value1 else value2

end ValueHierarchy

/-! ## `ContextualValueApplicability` (applicability scoring)

Its `matchesContextPattern` variant compares string fields by `includes`,
array fields by "some pattern element is contained in the context array", and
anything else by JSON-stringify equality.  The fields of `Context` we carry
are three arrays and one object, so a pattern is modelled per-field with those
semantics. -/

structure ApplicabilityEnhancement where
  valueId : String
  entities : Option (List CEntity) := none
  userIntentions : Option (List UserIntention) := none
  conversationState : Option ConvState := none
  recentMessages : Option (List Msg) := none
  applicabilityModifier : ℚ
deriving DecidableEq, Repr

structure ContextualValueApplicability where
  enhancements : List (String × List ApplicabilityEnhancement)
deriving DecidableEq, Repr

namespace ContextualValueApplicability

/-- Array fields match when some pattern element is `includes`-contained in
the context array; the `conversationState` object is compared structurally. -/
def matchesContextPattern (ctx : Context) (e : ApplicabilityEnhancement) : Bool :=
  (match e.entities with | none => true | some v => v.any (fun x => ctx.entities.contains x)) &&
  (match e.userIntentions with
   | none => true
   | some v => v.any (fun x => ctx.userIntentions.contains x)) &&
  (match e.conversationState with | none => true | some v => ctx.conversationState == some v) &&
  (match e.recentMessages with
   | none => true
   | some v => v.any (fun x => ctx.recentMessages.contains x))

/-- `applyEnhancements`: sum `(modifier-1)/2` over matching enhancements for
the value, capped to `[-0.5, 0.5]`; `0` when none are registered. -/
def applyEnhancements (st : ContextualValueApplicability) (valueId : String) (ctx : Context) : ℚ :=
  match lookupA st.enhancements valueId with
  | none => 0
  | some valueEnhancements =>
    let enhancementEffect := valueEnhancements.foldl
      (fun acc enhancement =>
        if matchesContextPattern ctx enhancement then
          acc + (enhancement.applicabilityModifier - 1) / 2
        else acc) 0
    max (-(1/2)) (min (1/2) enhancementEffect)

/-- `context.recentMessages.some(m => keywords.some(kw =>
m.content.toLowerCase().includes(kw.toLowerCase())))`. -/
def containsKeywords (ctx : Context) (keywords : List String) : Bool :=
  ctx.recentMessages.any fun message =>
    match message.content with
    | none => false
    | some content => keywords.any fun keyword =>
        occursInStr (toLowerStr keyword) (toLowerStr content)

/-- `scoreManifestationMatch`: the large switch over manifestation context
tags, with keyword fallbacks. -/
def scoreManifestationMatch (m : ValueManifestation) (ctx : Context) : ℚ :=
  if m.context = "information_sharing" then
    if hasIntentionOfType ctx ["query", "inquiry", "information_request"] then 9/10 else 4/10
  else if m.context = "decision_making" then
    if hasIntentionOfType ctx ["decision", "choice", "selection"] then 1
    else if containsKeywords ctx ["decide", "choice", "option", "alternative", "should I"] then 8/10
    else 3/10
  else if m.context = "disagreement" then
    if (match ctx.conversationState with
        | some cs => decide (cs.recentSentiment < -(3/10))
        | none => false) then 8/10
    else if containsKeywords ctx ["disagree", "incorrect", "wrong", "mistaken", "not true"] then 7/10
    else 2/10
  else if m.context = "emotional_support" then
    if (match ctx.conversationState with
        | some cs => decide (cs.recentSentiment < -(1/2))
        | none => false) then 9/10
    else if containsKeywords ctx ["sad", "upset", "worried", "anxious", "depressed", "concerned"]
    then 8/10
    else 3/10
  else if m.context = "sensitive_topics" then
    if (match ctx.conversationState with
        | some cs => cs.activeTopics.any fun topic =>
            sensitiveTopics.any fun s => occursInStr s topic
        | none => false) then 7/10
    else if containsKeywords ctx sensitiveTopics then 6/10
    else 2/10
  else if m.context = "knowledge_sharing" then
    if hasIntentionOfType ctx ["question", "factual_query", "explanation_request"] then 8/10
    else if containsKeywords ctx ["what is", "how does", "why is", "when did", "where is"]
    then 7/10
    else 4/10
  else if m.context = "system_functionality" then
    if hasIntentionOfType ctx ["capability_query", "help_request", "how_to"] then 9/10
    else if containsKeywords ctx ["can you", "how do you", "feature", "function", "capability"]
    then 7/10
    else 3/10
  else if m.context = "persuasion" then
    if hasIntentionOfType ctx ["convince", "persuade", "recommend"] then 8/10 else 2/10
  else if m.context = "mistake_handling" then
    if containsKeywords ctx ["mistake", "error", "wrong", "incorrect", "fix"] then 9/10 else 3/10
  else if m.context = "data_collection" ∨ m.context = "personal_information" ∨
          m.context = "data_sharing" then
    if containsKeywords ctx ["data", "information", "privacy", "share", "collect", "store"]
    then 8/10
    else 3/10
  else if m.context = "language_use" ∨ m.context = "cultural_awareness" ∨
          m.context = "bias_mitigation" then 1/2
  else if m.context = "identity" ∨ m.context = "capabilities" then 3/5
  else 4/10

/-- `scoreManifestations`: `0.5` for values with no manifestations, otherwise
the maximum manifestation match score. -/
def scoreManifestations (value : CoreValue) (ctx : Context) : ℚ :=
  match value.manifestations.map (fun m => scoreManifestationMatch m ctx) with
  | [] => 1/2
  | s :: ss => ss.foldl max s

/-- `getApplicabilityScore`: `importance·0.5 + manifestations·0.3 +
enhancements·0.2`, clamped to `[0,1]`. -/
def getApplicabilityScore (st : ContextualValueApplicability) (value : CoreValue)
    (ctx : Context) : ℚ :=
  let score := value.importance * (1/2)
  let score := score + scoreManifestations value ctx * (3/10)
  let score := score + applyEnhancements st value.id ctx * (1/5)
  clamp01 score

/-- `isRelevant`: applicability score strictly above `0.3`. -/
def isRelevant (st : ContextualValueApplicability) (value : CoreValue) (ctx : Context) : Bool :=
  getApplicabilityScore st value ctx > 3/10

end ContextualValueApplicability

/-! ## Data model of the understanding layer (`enhanced-types.ts`) -/

/-- The `IntentionType` enumeration.  `intentionTypeStr` gives each member's
string value. -/
inductive IntentionType where
  | questionFactual | questionOpinion | questionClarification
  | requestAction | suggestAction | command
  | greeting | farewell | gratitude | apology | agreement | disagreement
  | expressPositive | expressNegative | expressNeutral
  | feedbackPositive | feedbackNegative | topicSwitch | metaCommunication
  | systemInform | systemRequest | systemSuggest | systemAcknowledge | systemClarify
  | unknown
deriving DecidableEq, Repr

def intentionTypeStr : IntentionType → String
  | .questionFactual => "question_factual"
  | .questionOpinion => "question_opinion"
  | .questionClarification => "question_clarification"
  | .requestAction => "request_action"
  | .suggestAction => "suggest_action"
  | .command => "command"
  | .greeting => "greeting"
  | .farewell => "farewell"
  | .gratitude => "gratitude"
  | .apology => "apology"
  | .agreement => "agreement"
  | .disagreement => "disagreement"
  | .expressPositive => "express_positive"
  | .expressNegative => "express_negative"
  | .expressNeutral => "express_neutral"
  | .feedbackPositive => "feedback_positive"
  | .feedbackNegative => "feedback_negative"
  | .topicSwitch => "topic_switch"
  | .metaCommunication => "meta_communication"
  | .systemInform => "system_inform"
  | .systemRequest => "system_request"
  | .systemSuggest => "system_suggest"
  | .systemAcknowledge => "system_acknowledge"
  | .systemClarify => "system_clarify"
  | .unknown => "unknown"

/-- `Entity` of `enhanced-types.ts` (`type` is the `EntityType` enum's string
value, e.g. `"topic"`, `"concept"`). -/
structure REntity where
  etype : String
  value : String
  normalizedValue : Option String := none
  startIndex : Nat := 0
  endIndex : Nat := 0
  confidence : ℚ
  attributes : List (String × String) := []
  firstMentionedAt : Option Nat := none
  lastMentionedAt : Option Nat := none
  mentionCount : Option Nat := none
deriving DecidableEq, Repr

/-- Provenance recorded in `Intention.metadata` by the detector: the matched
regex pattern (first pass) or the matched keywords (second pass). -/
inductive IntentionMeta where
  | noMeta
  | fromPattern (matchedPattern : String)
  | fromKeywords (matchedKeywords : List String)
deriving DecidableEq, Repr

/-- `Intention` of `enhanced-types.ts` as built by `IntentionDetector`. -/
structure DIntention where
  itype : IntentionType
  confidence : ℚ
  relatedEntities : Option (List REntity) := none
  meta : IntentionMeta := .noMeta
deriving DecidableEq, Repr

/-! ## `IntentionDetector` (`intention-detector.ts`)

The regex source strings of `intentionPatterns` are carried as data; whether a
given regex matches a given text is a parameter `rx : String → String → Bool`
of `detectIntentions`, so every theorem below holds for every possible set of
regex outcomes.  Keyword matching (`new RegExp("\\b"+kw+"\\b", 'i')` against
the lower-cased text) is implemented by `hasWholeWord`. -/

def intentionPatterns : List (IntentionType × List String) :=
  [(.questionFactual,
    ["^(what|where|when|who|how|why|which|can you tell me|do you know|tell me about).+\\?$",
     "^is.+\\?$", "^are.+\\?$",
     "^(could|would) you (tell|explain|describe|clarify).+\\?$"]),
   (.questionOpinion,
    ["^what (do you think|is your opinion|are your thoughts) (about|on).+\\?$",
     "^(how|what) do you feel about.+\\?$",
     "^would you (say|consider|recommend).+\\?$"]),
   (.questionClarification,
    ["^(what do you mean|can you clarify|could you explain|i\x27m not sure i understand|what do you mean by).+\\?$",
     "^(come again|sorry|excuse me|pardon)\\?$"]),
   (.requestAction,
    ["^(can|could|would) you (please )?(help|assist|do|create|make|find|show|display|calculate).+\\?$",
     "^(please|kindly) (help|assist|show|find|create).+$",
     "^i (need|want|would like) (you to|for you to|help with|assistance with).+$"]),
   (.command,
    ["^(help|assist|do|create|make|find|show|display|calculate|clear|delete|remove|change|switch|toggle|set|turn).+$"]),
   (.greeting,
    ["^(hi|hello|hey|greetings|good morning|good afternoon|good evening|howdy).+$"]),
   (.farewell,
    ["^(bye|goodbye|see you|talk to you later|until next time|have a good day|good night).+$"]),
   (.gratitude,
    ["^(thank you|thanks|much appreciated|grateful|appreciate it).+$"]),
   (.apology,
    ["^(sorry|i apologize|my apologies|forgive me|excuse me).+$"]),
   (.agreement,
    ["^(yes|yeah|yep|sure|of course|absolutely|definitely|i agree|that\x27s right|correct|indeed).+$"]),
   (.disagreement,
    ["^(no|nope|not really|i disagree|that\x27s incorrect|i don\x27t think so|that\x27s wrong).+$"]),
   (.expressPositive,
    ["^(i(\x27m| am) (happy|glad|excited|pleased|delighted)|that\x27s (great|good|wonderful|awesome|amazing)).+$",
     "^(love it|fantastic|excellent|perfect|brilliant|outstanding|superb).+$"]),
   (.expressNegative,
    ["^(i(\x27m| am) (sad|upset|angry|frustrated|disappointed|annoyed)|that\x27s (bad|terrible|awful|horrible|disappointing)).+$",
     "^(hate it|dislike|terrible|awful|horrible|dreadful|unacceptable).+$"]),
   (.feedbackPositive,
    ["^(that was helpful|good job|well done|nice work|you\x27re doing great|that\x27s useful).+$"]),
   (.feedbackNegative,
    ["^(that (wasn\x27t|was not) helpful|not what i was looking for|you didn\x27t understand|you misunderstood|that\x27s not right).+$"]),
   (.topicSwitch,
    ["^(let\x27s talk about|changing the subject|on another note|switching gears|moving on to|speaking of).+$"]),
   (.metaCommunication,
    ["^(i\x27m trying to|my goal is to|what i\x27m looking for is|the reason i\x27m asking is|to clarify).+$"])]

def intentionKeywords : List (IntentionType × List String) :=
  [(.questionFactual, ["what", "where", "when", "who", "how", "why", "which"]),
   (.questionOpinion, ["think", "opinion", "feel", "recommend", "suggest"]),
   (.questionClarification, ["clarify", "explain", "mean", "understand", "confused"]),
   (.requestAction, ["help", "assist", "please", "need", "want", "could you", "would you", "can you"]),
   (.command, ["search", "find", "show", "display", "create", "change", "update", "delete", "clear"]),
   (.greeting, ["hi", "hello", "hey", "greetings", "morning", "afternoon", "evening"]),
   (.farewell, ["bye", "goodbye", "see you", "later", "night", "leaving"]),
   (.gratitude, ["thanks", "thank", "appreciate", "grateful", "thankful"]),
   (.apology, ["sorry", "apologize", "apologies", "forgive", "mistake"]),
   (.agreement, ["yes", "agree", "correct", "right", "indeed", "exactly"]),
   (.disagreement, ["no", "disagree", "incorrect", "wrong", "mistaken", "don\x27t think so"]),
   (.expressPositive, ["happy", "glad", "excited", "love", "great", "good", "wonderful"]),
   (.expressNegative, ["sad", "upset", "angry", "hate", "bad", "terrible", "frustrated"]),
   (.feedbackPositive, ["helpful", "good job", "well done", "useful", "perfect"]),
   (.feedbackNegative, ["not helpful", "didn\x27t help", "misunderstood", "wrong", "incorrect"]),
   (.topicSwitch, ["change subject", "another topic", "different topic", "speaking of"]),
   (.metaCommunication, ["trying to", "my goal", "looking for", "purpose", "conversation"])]

namespace IntentionDetector

/-- `findRelatedEntities`: `undefined` for missing/empty entity lists, else
all entities. -/
def findRelatedEntities (entities : Option (List REntity)) : Option (List REntity) :=
  match entities with
  | none => none
  | some [] => none
  | some es => some es

/-- First pass: one intention (confidence `0.9`) per matching regex pattern,
in table order. -/
def patternPass (rx : String → String → Bool) (text : String) (entities : Option (List REntity)) :
    List (IntentionType × List String) → List DIntention
  | [] => []
  | (intentionType, patterns) :: rest =>
    ((patterns.filter (fun p => rx p text)).map fun p =>
      { itype := intentionType, confidence := 9/10,
        relatedEntities := findRelatedEntities entities, meta := .fromPattern p })
    ++ patternPass rx text entities rest

/-- Second pass: keyword matching, appending to the accumulated list (the skip
check sees earlier additions, as the mutated JS array does). -/
def keywordPass (lowerText : String) (entities : Option (List REntity)) :
    List (IntentionType × List String) → List DIntention → List DIntention
  | [], acc => acc
  | (intentionType, keywords) :: rest, acc =>
    if acc.any (fun i => i.itype == intentionType && i.confidence ≥ 8/10) then
      keywordPass lowerText entities rest acc
    else
      let kwMatches := keywords.filter fun keyword => hasWholeWord keyword lowerText
      if kwMatches.length > 0 then
        keywordPass lowerText entities rest
          (acc ++ [{ itype := intentionType,
                     confidence := min (3/10 + (kwMatches.length : ℚ) * (2/10)) (17/20),
                     relatedEntities := findRelatedEntities entities,
                     meta := .fromKeywords kwMatches }])
      else keywordPass lowerText entities rest acc

/-- The body of `detectIntentions` before the final sort: pattern pass,
conditional keyword pass, question-mark special case, `unknown` fallback. -/
def detectIntentionsBase (rx : String → String → Bool) (text : String)
    (entities : Option (List REntity)) : List DIntention :=
  let lowerText := trimStr (toLowerStr text)
  let detected := patternPass rx text entities intentionPatterns
  let enterKeywords :=
    match detected with
    | [] => true
    | i :: _ => decide (i.confidence < 8/10)
  let detected :=
    if enterKeywords then keywordPass lowerText entities intentionKeywords detected
    else detected
  let detected :=
    if endsWithQmark text &&
       !(detected.any fun i =>
          i.itype == .questionFactual || i.itype == .questionOpinion ||
          i.itype == .questionClarification) then
      detected ++ [{ itype := .questionFactual, confidence := 7/10,
                     relatedEntities := entities, meta := .noMeta }]
    else detected
  if detected.isEmpty then
    [{ itype := .unknown, confidence := 1, relatedEntities := entities, meta := .noMeta }]
  else detected

/-- `detectIntentions`: the passes above, then
`sort((a, b) => b.confidence - a.confidence)` — a stable sort descending by
confidence (`insertionSort` is the matching stable sort). -/
def detectIntentions (rx : String → String → Bool) (text : String)
    (entities : Option (List REntity)) : List DIntention :=
  (detectIntentionsBase rx text entities).insertionSort fun a b => b.confidence ≤ a.confidence

end IntentionDetector

/-- The descending-by-confidence comparison used by the detector's final sort
is total and transitive (so `insertionSort` by it really sorts). -/
instance : IsTotal DIntention (fun a b => b.confidence ≤ a.confidence) :=
  ⟨fun a b => le_total b.confidence a.confidence⟩

instance : IsTrans DIntention (fun a b => b.confidence ≤ a.confidence) :=
  ⟨fun _ _ _ hab hbc => le_trans hbc hab⟩

/-- The by-start-offset comparison used by the entity recognizer's sort. -/
instance : IsTotal REntity (fun a b => a.startIndex ≤ b.startIndex) :=
  ⟨fun a b => Nat.le_total a.startIndex b.startIndex⟩

instance : IsTrans REntity (fun a b => a.startIndex ≤ b.startIndex) :=
  ⟨fun _ _ _ hab hbc => Nat.le_trans hab hbc⟩

/-! ## `EntityRecognizer.resolveOverlappingEntities` (`entity-recognizer.ts`)

The candidate entities handed to this pass come from the regex, gazetteer and
concept extractors; each carries a span `[startIndex, endIndex)` inside the
analysed text and a confidence (`0.8` pattern / `0.9` list / `0.6` concept).
The pass sorts by start offset (JS `sort` is stable; `insertionSort` is the
matching stable sort) and greedily keeps, of each overlapping pair, the
higher-confidence entity, breaking ties towards the longer span. -/

namespace EntityRecognizer

/-- The overlap test of the resolution loop:
`current.startIndex <= next.startIndex && current.endIndex > next.startIndex`. -/
def overlapsNext (cur nxt : REntity) : Bool :=
  cur.startIndex ≤ nxt.startIndex && cur.endIndex > nxt.startIndex

/-- Keep the higher-confidence entity; on equal confidence prefer the longer
span; otherwise keep the current one. -/
def pickWinner (cur nxt : REntity) : REntity :=
  if nxt.confidence > cur.confidence then nxt
  else if nxt.confidence = cur.confidence ∧
          (nxt.endIndex : ℤ) - nxt.startIndex > (cur.endIndex : ℤ) - cur.startIndex then nxt
  else cur

/-- The `for` loop of `resolveOverlappingEntities`. -/
def resolveLoop (cur : REntity) : List REntity → List REntity
  | [] => [cur]
  | nxt :: rest =>
    if overlapsNext cur nxt then resolveLoop (pickWinner cur nxt) rest
    else cur :: resolveLoop nxt rest

/-- The final `map` stamping mention metadata on every survivor. -/
def addMentionMetadata (now : Nat) (e : REntity) : REntity :=
  { e with firstMentionedAt := some now, lastMentionedAt := some now, mentionCount := some 1 }

/-- `resolveOverlappingEntities`.  Lists of length `≤ 1` are returned as they
are (without metadata), exactly as in the source. -/
def resolveOverlappingEntities (now : Nat) (entities : List REntity) : List REntity :=
  if entities.length ≤ 1 then entities
  else
    match entities.insertionSort (fun a b => a.startIndex ≤ b.startIndex) with
    | [] => []
    | cur :: rest => (resolveLoop cur rest).map (addMentionMetadata now)

end EntityRecognizer

/-! ## `WorkingMemory` (working memory of a conversation)

State, `addMessage`, `focusOnEntity`, `focusOnTopic` and `reset`, with
`Date.now()` passed in as `now`. -/

/-- `EnhancedMessage`, restricted to the fields `WorkingMemory` reads. -/
structure WMessage where
  content : String
  sender : String
  timestamp : Nat
  entities : List REntity := []
  detectedIntentions : List DIntention := []
  primaryIntention : Option DIntention := none
deriving DecidableEq, Repr

structure FocusState where
  activeTopics : List String
  activeEntities : List REntity
  recentIntentions : List DIntention
  attentionPriorities : List (String × ℚ)
deriving DecidableEq, Repr

structure WMConversationState where
  startTime : Nat
  messageCount : Nat
  activeTopics : List String
  userEngagementLevel : ℚ
deriving DecidableEq, Repr

structure ConversationContext where
  currentFocus : FocusState
  recentMessages : List WMessage
  entityMap : List (String × REntity)
  conversationState : WMConversationState
deriving DecidableEq, Repr

namespace WorkingMemory

def maxRecentMessages : Nat := 10

def entityExpirationTime : Nat := 30 * 60 * 1000

/-- The context built by the constructor and by `reset()`. -/
def initialContext (now : Nat) : ConversationContext :=
  ⟨⟨[], [], [], []⟩, [], [], ⟨now, 0, [], 1/2⟩⟩

/-- `${entity.type}:${normalizedValue}` with
`normalizedValue = entity.normalizedValue || entity.value.toLowerCase()`
(a JS `||`, so an empty normalized value also falls back). -/
def entityKeyOf (e : REntity) : String × String :=
  let normalizedValue :=
    match e.normalizedValue with
    | some nv => if nv = "" then toLowerStr e.value else nv
    | none => toLowerStr e.value
  (e.etype ++ ":" ++ normalizedValue, normalizedValue)

/-- JS object spread `{...a, ...b}`: keys of `a` in order (values overridden
by `b` where present), then the new keys of `b`. -/
def mergeRecs (a b : List (String × String)) : List (String × String) :=
  a.map (fun p => (p.1, (lookupA b p.1).getD p.2))
  ++ b.filter (fun p => !(a.any (fun q => q.1 == p.1)))

/-- `cleanupExpiredEntities`: drop entities last mentioned more than 30
minutes ago. -/
def cleanupExpiredEntities (now : Nat) (m : List (String × REntity)) : List (String × REntity) :=
  m.filter fun p =>
    !((now : ℤ) - ((p.2.lastMentionedAt).getD 0 : ℤ) > (entityExpirationTime : ℤ))

/-- `updateEntities`: merge each incoming entity into the entity table
(max-confidence, attribute merge, mention count), then clean up expired
entries. -/
def updateEntities (now : Nat) (entities : List REntity) (m : List (String × REntity)) :
    List (String × REntity) :=
  let m := entities.foldl
    (fun m entity =>
      let (entityKey, normalizedValue) := entityKeyOf entity
      match lookupA m entityKey with
      | some existingEntity =>
        setA m entityKey
          { existingEntity with
            lastMentionedAt := some now,
            mentionCount := some ((existingEntity.mentionCount.getD 1) + 1),
            confidence := max existingEntity.confidence entity.confidence,
            attributes := mergeRecs existingEntity.attributes entity.attributes }
      | none =>
        setA m entityKey
          { entity with
            firstMentionedAt := some now, lastMentionedAt := some now,
            mentionCount := some 1, normalizedValue := some normalizedValue })
    m
  cleanupExpiredEntities now m

/-- `updateIntentions`: two most confident incoming intentions first, then the
previous ones, capped at 5. -/
def updateIntentions (intentions : List DIntention) (recent : List DIntention) :
    List DIntention :=
  (intentions.take 2 ++ recent).take 5

/-- `updateTopics`: append unseen topic/concept entity values, then keep the
last 5. -/
def updateTopics (message : WMessage) (activeTopics : List String) : List String :=
  let topicEntities := message.entities.filter fun e =>
    e.etype == "topic" || e.etype == "concept"
  let topics := topicEntities.foldl
    (fun ts topicEntity =>
      if ts.contains topicEntity.value then ts else ts ++ [topicEntity.value])
    activeTopics
  if topics.length > 5 then topics.drop (topics.length - 5) else topics

/-- `updateEngagementLevel` (note the JS `|| 0.5` that also rewrites a stored
level of exactly `0`). -/
def updateEngagementLevel (message : WMessage) (level : ℚ) : ℚ :=
  let adjustment : ℚ :=
    if message.content.length > 100 then 1/10
    else if message.content.length > 50 then 1/20
    else if message.content.length < 10 then -(1/20)
    else 0
  let adjustment := adjustment + (if occursInStr "?" message.content then 1/20 else 0)
  let isActionIntent : Bool :=
    match message.primaryIntention with
    | some pi => pi.itype == .command || pi.itype == .requestAction
    | none => false
  let adjustment := adjustment + (if isActionIntent then 1/10 else 0)
  let base := if level = 0 then 1/2 else level
  max 0 (min 1 (base + adjustment))

/-- `getActiveEntities`: all tracked entities sorted by
`mentionCount·10000 − (now − lastMentionedAt)` descending, first 10. -/
def getActiveEntities (now : Nat) (m : List (String × REntity)) : List REntity :=
  let score : REntity → ℤ := fun e =>
    ((e.mentionCount.getD 1 : ℤ) * 10000) - ((now : ℤ) - (e.lastMentionedAt.getD 0 : ℤ))
  ((m.map (·.2)).insertionSort (fun a b => score b ≤ score a)).take 10

/-- The `entity.normalizedValue || entity.value` key fragment. -/
def entityNormOrValue (e : REntity) : String :=
  match e.normalizedValue with
  | some nv => if nv = "" then e.value else nv
  | none => e.value

/-- `calculateAttentionPriorities`: rank-based priorities `1 - i/len` for
active entities, recent intentions and active topics. -/
def calculateAttentionPriorities (now : Nat) (ctx : ConversationContext) :
    List (String × ℚ) :=
  let activeEntities := getActiveEntities now ctx.entityMap
  let priorities := activeEntities.enum.foldl
    (fun acc (p : Nat × REntity) =>
      let priority : ℚ := 1 - (p.1 : ℚ) / (activeEntities.length : ℚ)
      setA acc ("entity:" ++ p.2.etype ++ ":" ++ entityNormOrValue p.2) priority)
    []
  let recentIntentions := ctx.currentFocus.recentIntentions
  let priorities := recentIntentions.enum.foldl
    (fun acc (p : Nat × DIntention) =>
      let priority : ℚ := 1 - (p.1 : ℚ) / (recentIntentions.length : ℚ)
      setA acc ("intention:" ++ intentionTypeStr p.2.itype) priority)
    priorities
  let activeTopics := ctx.conversationState.activeTopics
  activeTopics.enum.foldl
    (fun acc (p : Nat × String) =>
      let priority : ℚ := 1 - (p.1 : ℚ) / (activeTopics.length : ℚ)
      setA acc ("topic:" ++ p.2) priority)
    priorities

/-- `refreshFocusState`. -/
def refreshFocusState (now : Nat) (ctx : ConversationContext) : ConversationContext :=
  let focus : FocusState :=
    ⟨ctx.conversationState.activeTopics,
     getActiveEntities now ctx.entityMap,
     ctx.currentFocus.recentIntentions,
     calculateAttentionPriorities now ctx⟩
  { ctx with currentFocus := focus }

/-- `addMessage`. -/
def addMessage (now : Nat) (message : WMessage) (ctx : ConversationContext) :
    ConversationContext :=
  let recentMessages := ctx.recentMessages ++ [message]
  let recentMessages :=
    if recentMessages.length > maxRecentMessages then recentMessages.tail else recentMessages
  let ctx := { ctx with recentMessages := recentMessages }
  let cs1 := { ctx.conversationState with
               messageCount := ctx.conversationState.messageCount + 1 }
  let ctx := { ctx with conversationState := cs1 }
  let ctx :=
    if message.entities.length > 0 then
      { ctx with entityMap := updateEntities now message.entities ctx.entityMap }
    else ctx
  let ctx :=
    if message.detectedIntentions.length > 0 then
      let focus := { ctx.currentFocus with
                     recentIntentions :=
                       updateIntentions message.detectedIntentions
                         ctx.currentFocus.recentIntentions }
      { ctx with currentFocus := focus }
    else ctx
  let cs2 := { ctx.conversationState with
               activeTopics := updateTopics message ctx.conversationState.activeTopics }
  let ctx := { ctx with conversationState := cs2 }
  let ctx :=
    if message.sender == "user" then
      let cs3 := { ctx.conversationState with
                   userEngagementLevel :=
                     updateEngagementLevel message ctx.conversationState.userEngagementLevel }
      { ctx with conversationState := cs3 }
    else ctx
  refreshFocusState now ctx

/-- `focusOnEntity`. -/
def focusOnEntity (now : Nat) (entity : REntity) (ctx : ConversationContext) :
    ConversationContext :=
  let (entityKey, normalizedValue) := entityKeyOf entity
  let entityMap :=
    match lookupA ctx.entityMap entityKey with
    | some existingEntity =>
      setA ctx.entityMap entityKey { existingEntity with lastMentionedAt := some now }
    | none =>
      setA ctx.entityMap entityKey
        { entity with
          firstMentionedAt := some now, lastMentionedAt := some now,
          mentionCount := some 1, normalizedValue := some normalizedValue }
  refreshFocusState now { ctx with entityMap := entityMap }

/-- `focusOnTopic`: move (or add) the topic to the most-recent end.  Note that
this push is not followed by a cap check. -/
def focusOnTopic (now : Nat) (topic : String) (ctx : ConversationContext) :
    ConversationContext :=
  let activeTopics := (ctx.conversationState.activeTopics.filter (fun t => t ≠ topic)) ++ [topic]
  refreshFocusState now
    { ctx with conversationState := { ctx.conversationState with activeTopics := activeTopics } }

/-- `reset`. -/
def reset (now : Nat) (_ctx : ConversationContext) : ConversationContext := initialContext now

end WorkingMemory

/-! ## `InteractionPatternTracker` (`interaction-pattern-tracker.ts`)

The three miners run on every tracked message.  `new Date(ts).getHours()` is
local-time dependent, so the hour extraction is a parameter `getHours`;
nothing below depends on its values.  JS object key iteration: the sequence
and entity tables have non-numeric string keys and iterate in insertion
order; the hour table has integer-like keys and iterates in ascending
numeric order. -/

/-- `InteractionEvent` as built by `trackMessage`: `data` holds the message,
its primary-intention type (`UNKNOWN` when absent), and its entities. -/
structure IEvent where
  timestamp : Nat
  etype : String
  message : WMessage
  intention : IntentionType
  entities : List REntity
deriving DecidableEq, Repr

inductive PatternType where
  | sequential | temporal | frequency | contextual
deriving DecidableEq, Repr

/-- The `elements: any[]` payload: sequence parts for sequential patterns,
interaction events for temporal and frequency patterns. -/
inductive PatternElems where
  | strs (l : List String)
  | events (l : List IEvent)
deriving DecidableEq, Repr

/-- `metadata` of a pattern, by pattern kind (`itemType` of a frequency
pattern is encoded by the constructor). -/
inductive PatternMeta where
  | seq (sequenceKey : String) (sequenceParts : List String)
  | hourOfDay (timeRange : String) (hour : Nat)
  | freqIntention (frequentItem : String) (frequency : ℚ)
  | freqEntity (frequentItem : String) (entityType entityValue : String)
deriving DecidableEq, Repr

structure IPattern where
  ptype : PatternType
  description : String
  confidence : ℚ
  occurrences : Nat
  firstObservedAt : Nat
  lastObservedAt : Nat
  elements : PatternElems
  metadata : PatternMeta
deriving DecidableEq, Repr

structure InteractionPatternTracker where
  interactionHistory : List IEvent
  patterns : List IPattern
deriving DecidableEq, Repr

namespace InteractionPatternTracker

def maxHistorySize : Nat := 100

/-- Count-table bump with JS object-property insertion order. -/
def bumpCount {κ : Type} [BEq κ] (tbl : List (κ × Nat)) (k : κ) : List (κ × Nat) :=
  match lookupA tbl k with
  | some n => setA tbl k (n + 1)
  | none => tbl ++ [(k, 1)]

/-- `formatIntention`: lower-case, underscores to spaces, capitalize word
starts (`\b\w`). -/
def capWordStarts : List Char → Bool → List Char
  | [], _ => []
  | c :: t, prevW =>
    (if isWordChar c && !prevW then c.toUpper else c) :: capWordStarts t (isWordChar c)

def formatIntention (intentionType : String) : String :=
  String.mk (capWordStarts (((toLowerStr intentionType).toList).map
    (fun c => if c = '_' then ' ' else c)) false)

/-- `trackEvent`: append, keep the last 100. -/
def trackEvent (event : IEvent) (st : InteractionPatternTracker) : InteractionPatternTracker :=
  let history := st.interactionHistory ++ [event]
  { st with interactionHistory :=
      if history.length > maxHistorySize then history.tail else history }

/-- The user-message events of the history. -/
def userMessageEvents (st : InteractionPatternTracker) : List IEvent :=
  st.interactionHistory.filter fun event =>
    event.etype == "message" && event.message.sender == "user"

/-- 2-step sequence keys, in scan order. -/
def seqKeys2 : List IEvent → List String
  | a :: b :: t =>
    (intentionTypeStr a.intention ++ "→" ++ intentionTypeStr b.intention) :: seqKeys2 (b :: t)
  | _ => []

/-- 3-step sequence keys, in scan order. -/
def seqKeys3 : List IEvent → List String
  | a :: b :: c :: t =>
    (intentionTypeStr a.intention ++ "→" ++ intentionTypeStr b.intention ++ "→" ++
     intentionTypeStr c.intention) :: seqKeys3 (b :: c :: t)
  | _ => []

/-- The sequential metadata key of a pattern, when it has one. -/
def seqKeyOf (p : IPattern) : Option String :=
  match p.metadata with
  | .seq k _ => some k
  | _ => none

/-- Create-or-update for one `(sequence, count)` table entry with `count ≥ 2`. -/
def applySeqEntry (now : Nat) (patterns : List IPattern) (sequence : String) (count : Nat) :
    List IPattern :=
  let patternExists := patterns.any fun p =>
    p.ptype == .sequential && seqKeyOf p == some sequence
  if !patternExists then
    let parts := sequence.splitOn "→"
    patterns ++
      [{ ptype := .sequential,
         description := "User often follows " ++ formatIntention (parts.headD "") ++
           " with " ++ formatIntention (parts.getLastD ""),
         confidence := min (1/2 + (count : ℚ) * (1/10)) (9/10),
         occurrences := count,
         firstObservedAt := now, lastObservedAt := now,
         elements := .strs parts,
         metadata := .seq sequence parts }]
  else
    patterns.map fun p =>
      if p.ptype == .sequential && seqKeyOf p == some sequence then
        { p with occurrences := p.occurrences + 1,
                 lastObservedAt := now,
                 confidence := min (1/2 + ((p.occurrences : ℚ) + 1) * (1/10)) (9/10) }
      else p

/-- `detectSequentialPatterns`. -/
def detectSequentialPatterns (now : Nat) (st : InteractionPatternTracker) :
    InteractionPatternTracker :=
  if st.interactionHistory.length < 3 then st
  else
    let messageEvents := userMessageEvents st
    if messageEvents.length < 3 then st
    else
      let intentionSequences :=
        (seqKeys2 messageEvents ++ seqKeys3 messageEvents).foldl bumpCount
          ([] : List (String × Nat))
      let patterns := intentionSequences.foldl
        (fun patterns entry =>
          if entry.2 ≥ 2 then applySeqEntry now patterns entry.1 entry.2 else patterns)
        st.patterns
      { st with patterns := patterns }

/-- The time-range metadata key of a pattern, when it has one. -/
def timeRangeOf (p : IPattern) : Option String :=
  match p.metadata with
  | .hourOfDay tr _ => some tr
  | _ => none

/-- Create-or-update for one `(hour, count)` entry with `count ≥ 3`. -/
def applyHourEntry (getHours : Nat → Nat) (now : Nat) (userMessages : List IEvent)
    (patterns : List IPattern) (hourNum : Nat) (count : Nat) : List IPattern :=
  let timeRange := toString hourNum ++ ":00-" ++ toString hourNum ++ ":59"
  let patternExists := patterns.any fun p =>
    p.ptype == .temporal && timeRangeOf p == some timeRange
  if !patternExists then
    let formattedHour := if hourNum % 12 = 0 then 12 else hourNum % 12
    let amPm := if hourNum < 12 then "AM" else "PM"
    patterns ++
      [{ ptype := .temporal,
         description := "User is often active around " ++ toString formattedHour ++ " " ++ amPm,
         confidence := min (1/2 + (count : ℚ) * (1/10)) (9/10),
         occurrences := count,
         firstObservedAt := now, lastObservedAt := now,
         elements := .events (userMessages.filter fun e => getHours e.timestamp == hourNum),
         metadata := .hourOfDay timeRange hourNum }]
  else
    patterns.map fun p =>
      if p.ptype == .temporal && timeRangeOf p == some timeRange then
        { p with occurrences := p.occurrences + 1,
                 lastObservedAt := now,
                 confidence := min (1/2 + ((p.occurrences : ℚ) + 1) * (1/10)) (9/10) }
      else p

/-- `detectTemporalPatterns`.  Hour keys are integer-like, so `Object.entries`
yields them in ascending order. -/
def detectTemporalPatterns (getHours : Nat → Nat) (now : Nat)
    (st : InteractionPatternTracker) : InteractionPatternTracker :=
  if st.interactionHistory.length < 5 then st
  else
    let userMessages := userMessageEvents st
    if userMessages.length < 5 then st
    else
      let hourDistribution :=
        (userMessages.map (fun e => getHours e.timestamp)).foldl bumpCount
          ([] : List (Nat × Nat))
      let entries := hourDistribution.insertionSort fun a b => a.1 ≤ b.1
      let patterns := entries.foldl
        (fun patterns entry =>
          if entry.2 ≥ 3 then applyHourEntry getHours now userMessages patterns entry.1 entry.2
          else patterns)
        st.patterns
      { st with patterns := patterns }

/-- The frequency-pattern lookup keys. -/
def freqIntentionKeyOf (p : IPattern) : Option String :=
  match p.metadata with
  | .freqIntention k _ => some k
  | _ => none

def freqEntityKeyOf (p : IPattern) : Option String :=
  match p.metadata with
  | .freqEntity k _ _ => some k
  | _ => none

/-- `${entity.type}:${entity.normalizedValue || entity.value}`. -/
def trackerEntityKey (e : REntity) : String :=
  e.etype ++ ":" ++ WorkingMemory.entityNormOrValue e

/-- Create-or-update for a frequent-intention entry
(`count ≥ 3` and `count/len ≥ 0.25`). -/
def applyFreqIntentionEntry (now : Nat) (userMessages : List IEvent)
    (patterns : List IPattern) (intention : String) (count : Nat) : List IPattern :=
  let patternExists := patterns.any fun p =>
    p.ptype == .frequency && freqIntentionKeyOf p == some intention
  if !patternExists then
    patterns ++
      [{ ptype := .frequency,
         description := "User frequently expresses " ++ formatIntention intention,
         confidence := min (1/2 + (count : ℚ) * (1/10)) (9/10),
         occurrences := count,
         firstObservedAt := now, lastObservedAt := now,
         elements := .events (userMessages.filter fun e =>
           intentionTypeStr e.intention == intention),
         metadata := .freqIntention intention ((count : ℚ) / (userMessages.length : ℚ)) }]
  else
    patterns.map fun p =>
      if p.ptype == .frequency && freqIntentionKeyOf p == some intention then
        { p with occurrences := count,
                 lastObservedAt := now,
                 confidence := min (1/2 + (count : ℚ) * (1/10)) (9/10),
                 metadata := .freqIntention intention ((count : ℚ) / (userMessages.length : ℚ)) }
      else p

/-- Create-or-update for a frequent-entity entry (`count ≥ 2`). -/
def applyFreqEntityEntry (now : Nat) (userMessages : List IEvent)
    (patterns : List IPattern) (entityKey : String) (count : Nat) : List IPattern :=
  let patternExists := patterns.any fun p =>
    p.ptype == .frequency && freqEntityKeyOf p == some entityKey
  let parts := entityKey.splitOn ":"
  let entityType := parts.headD ""
  let entityValue := (parts.drop 1).headD ""
  if !patternExists then
    patterns ++
      [{ ptype := .frequency,
         description := "User frequently mentions " ++ entityValue ++ " (" ++ entityType ++ ")",
         confidence := min (1/2 + (count : ℚ) * (1/10)) (9/10),
         occurrences := count,
         firstObservedAt := now, lastObservedAt := now,
         elements := .events (userMessages.filter fun e =>
           e.entities.any fun entity => trackerEntityKey entity == entityKey),
         metadata := .freqEntity entityKey entityType entityValue }]
  else
    patterns.map fun p =>
      if p.ptype == .frequency && freqEntityKeyOf p == some entityKey then
        { p with occurrences := count,
                 lastObservedAt := now,
                 confidence := min (1/2 + (count : ℚ) * (1/10)) (9/10) }
      else p

/-- `detectFrequencyPatterns`. -/
def detectFrequencyPatterns (now : Nat) (st : InteractionPatternTracker) :
    InteractionPatternTracker :=
  let userMessages := userMessageEvents st
  if userMessages.length < 3 then st
  else
    let intentionCounts :=
      (userMessages.map (fun e => intentionTypeStr e.intention)).foldl bumpCount
        ([] : List (String × Nat))
    let patterns := intentionCounts.foldl
      (fun patterns entry =>
        if entry.2 ≥ 3 ∧ (entry.2 : ℚ) / (userMessages.length : ℚ) ≥ 1/4 then
          applyFreqIntentionEntry now userMessages patterns entry.1 entry.2
        else patterns)
      st.patterns
    let entityCounts := userMessages.foldl
      (fun tbl e => e.entities.foldl (fun tbl entity => bumpCount tbl (trackerEntityKey entity)) tbl)
      ([] : List (String × Nat))
    let patterns := entityCounts.foldl
      (fun patterns entry =>
        if entry.2 ≥ 2 then applyFreqEntityEntry now userMessages patterns entry.1 entry.2
        else patterns)
      patterns
    { st with patterns := patterns }

/-- `analyzePatterns`: the three miners in source order. -/
def analyzePatterns (getHours : Nat → Nat) (now : Nat) (st : InteractionPatternTracker) :
    InteractionPatternTracker :=
  detectFrequencyPatterns now (detectTemporalPatterns getHours now (detectSequentialPatterns now st))

/-- `trackMessage`: wrap the message in an event, push it, analyze. -/
def trackMessage (getHours : Nat → Nat) (now : Nat) (message : WMessage)
    (st : InteractionPatternTracker) : InteractionPatternTracker :=
  let event : IEvent :=
    { timestamp := message.timestamp, etype := "message", message := message,
      intention := (message.primaryIntention.map (·.itype)).getD .unknown,
      entities := message.entities }
  analyzePatterns getHours now (trackEvent event st)

end InteractionPatternTracker

/-! ## `IntentionRecognizer.updateIntentionLifespans` (intention aging)

`activeIntentions` is a `Map id → UserIntention`; the pass deletes intentions
not re-detected for more than 10 minutes and decays the confidence of those
between 5 and 10 minutes old by `max(0.1, confidence · 0.8)`. -/

namespace IntentionRecognizer

def updateIntentionLifespans (now : Nat) (activeIntentions : List (String × UserIntention)) :
    List (String × UserIntention) :=
  activeIntentions.filterMap fun entry =>
    let intention := entry.2
    let timeSinceLastDetection : ℤ := (now : ℤ) - (intention.lastDetected : ℤ)
    if timeSinceLastDetection > 10 * 60 * 1000 then none
    else if timeSinceLastDetection > 5 * 60 * 1000 then
      some (entry.1, { intention with
                       confidence := max (1/10) (intention.confidence * (8/10)) })
    else some entry

end IntentionRecognizer

/-! ## `EntityTracker.cleanupStaleEntities` (entity salience decay)

Tracked entities (`contextual-understanding/entity-tracker.ts`): the cleanup
runs at most once a minute, decreases each entity's lifespan by one per 10
minutes since its last mention, deletes entities whose lifespan reaches 0 and
decays the salience of the survivors by `max(0.1, salience · 0.95)`. -/

structure TEntity where
  id : String
  name : String
  etype : String
  firstMentioned : Nat
  lastMentioned : Nat
  attributes : List (String × String)
  salience : ℚ
deriving DecidableEq, Repr

structure EntityTracker where
  entities : List (String × TEntity)
  entityLifespan : List (String × ℚ)
  lastCleanupTimestamp : Nat
deriving DecidableEq, Repr

namespace EntityTracker

/-- JS `Map.delete`. -/
def eraseA {β : Type} (l : List (String × β)) (k : String) : List (String × β) :=
  l.filter fun p => !(p.1 == k)

def cleanupStaleEntities (now : Nat) (st : EntityTracker) : EntityTracker :=
  if (now : ℤ) - (st.lastCleanupTimestamp : ℤ) < 60000 then st
  else
    let step := fun (acc : List (String × TEntity) × List (String × ℚ)) (entry : String × ℚ) =>
      match lookupA acc.1 entry.1 with
      | none => acc
      | some entity =>
        let timeSinceLastMention : ℚ := (now : ℚ) - (entity.lastMentioned : ℚ)
        let newLifespan := entry.2 - timeSinceLastMention / (10 * 60 * 1000)
        if newLifespan ≤ 0 then (eraseA acc.1 entry.1, acc.2)
        else
          let entity := { entity with salience := max (1/10) (entity.salience * (95/100)) }
          (setA acc.1 entry.1 entity, acc.2 ++ [(entry.1, newLifespan)])
    let res := st.entityLifespan.foldl step (st.entities, [])
    ⟨res.1, res.2, now⟩

end EntityTracker

/-! ## Concrete inputs used by scenario theorems and counterexamples -/

/-- A context with no entities, intentions, conversation state or messages. -/
def ctxEmpty : Context := ⟨[], [], none, []⟩

/-- A context whose conversation state has `recentSentiment = -0.6`. -/
def ctxNegSentiment : Context := ⟨[], [], some ⟨[], -(6/10)⟩, []⟩

/-- An applicability engine with no registered enhancements. -/
def emptyCVA : ContextualValueApplicability := ⟨[]⟩

/-- The hierarchy obtained from the core values by
`setCustomPriority('user_wellbeing', 'human_agency', 1)` (no context
pattern, hence a `'default'` priority). -/
def cexHierarchy : ValueHierarchy :=
  ⟨(ValueHierarchy.ofValues coreValues).values,
   [("user_wellbeing", [("human_agency", [((none : Option CtxPattern), (1 : ℚ))])])]⟩

/-- Is a pattern record a sequential pattern? -/
def isSeqPattern (p : IPattern) : Bool := p.ptype == .sequential

/-- The sequence signatures of the sequential pattern records, in order. -/
def seqSignatures (ps : List IPattern) : List (Option String) :=
  (ps.filter isSeqPattern).map InteractionPatternTracker.seqKeyOf

/-- Number of sequential pattern records carrying signature `k`. -/
def seqKeyCount (ps : List IPattern) (k : String) : Nat :=
  ps.countP fun p =>
    p.ptype == .sequential && InteractionPatternTracker.seqKeyOf p == some k

/-- No two sequential pattern records share a sequence signature. -/
def SeqUnique (ps : List IPattern) : Prop := (seqSignatures ps).Nodup

/-- Every sequential pattern record's confidence is
`min(0.5 + 0.1·occurrences, 0.9)`. -/
def SeqConfOK (ps : List IPattern) : Prop :=
  ∀ p ∈ ps, p.ptype = .sequential →
    p.confidence = min (1/2 + (p.occurrences : ℚ) * (1/10)) (9/10)

/-- A concrete sequential pattern record with signature `greeting→question`
observed twice. -/
def seqWitnessPattern : IPattern :=
  { ptype := .sequential, description := "d", confidence := 7/10,
    occurrences := 2, firstObservedAt := 0, lastObservedAt := 0,
    elements := .strs [], metadata := .seq "greeting→question" ["greeting", "question"] }


/-! ## Helper lemmas -/

theorem foldlMax_mem {α : Type} [LinearOrder α] (s : α) (ss : List α) :
    ss.foldl max s ∈ s :: ss := by
  induction ss generalizing s with
  | nil => simp
  | cons a t ih =>
    rw [List.foldl_cons]
    rcases List.mem_cons.mp (ih (max s a)) with h | h
    · rw [h]
      rcases max_choice s a with hc | hc <;> rw [hc]
      · exact List.mem_cons_self _ _
      · exact List.mem_cons.mpr (Or.inr (List.mem_cons_self _ _))
    · exact List.mem_cons.mpr (Or.inr (List.mem_cons.mpr (Or.inr h)))

theorem seed_le_foldlMax {α : Type} [LinearOrder α] (s : α) (ss : List α) :
    s ≤ ss.foldl max s := by
  induction ss generalizing s with
  | nil => simp
  | cons a t ih =>
    rw [List.foldl_cons]
    exact le_trans (le_max_left s a) (ih (max s a))

theorem le_foldlMax {α : Type} [LinearOrder α] (s : α) (ss : List α) :
    ∀ x ∈ s :: ss, x ≤ ss.foldl max s := by
  induction ss generalizing s with
  | nil => intro x hx; simp at hx; simp [hx]
  | cons a t ih =>
    intro x hx
    rw [List.foldl_cons]
    rcases List.mem_cons.mp hx with h | h
    · subst h
      exact le_trans (le_max_left x a) (seed_le_foldlMax _ t)
    · rcases List.mem_cons.mp h with h' | h'
      · subst h'
        exact le_trans (le_max_right s x) (seed_le_foldlMax _ t)
      · exact ih (max s a) x (List.mem_cons.mpr (Or.inr h'))

/-- **C4.**  The applicability score of a value with at least one
manifestation equals `0.5·importance + 0.3·(maximum manifestation match
score) + 0.2·(enhancement effect)`, clamped to `[0, 1]`
(`scoreManifestations` is exactly the maximum of the manifestation match
scores), and a value is classified relevant exactly when the score exceeds
`0.3`.  In particular, a context whose conversation state has
`recentSentiment = -0.6` makes `user_wellbeing` relevant: its
`emotional_support` manifestation matches at strength `0.9`, which is the
maximum, giving score `0.695 > 0.3`. -/
theorem C4_applicability_score_formula_and_wellbeing_scenario :
    (∀ (st : ContextualValueApplicability) (value : CoreValue) (ctx : Context),
      value.manifestations ≠ [] →
      (ContextualValueApplicability.scoreManifestations value ctx
          ∈ value.manifestations.map
              (fun m => ContextualValueApplicability.scoreManifestationMatch m ctx) ∧
        (∀ s ∈ value.manifestations.map
              (fun m => ContextualValueApplicability.scoreManifestationMatch m ctx),
          s ≤ ContextualValueApplicability.scoreManifestations value ctx)) ∧
      ContextualValueApplicability.getApplicabilityScore st value ctx =
        clamp01 ((1/2) * value.importance
          + (3/10) * ContextualValueApplicability.scoreManifestations value ctx
          + (1/5) * ContextualValueApplicability.applyEnhancements st value.id ctx)) ∧
    (∀ (st : ContextualValueApplicability) (value : CoreValue) (ctx : Context),
      ContextualValueApplicability.isRelevant st value ctx = true ↔
        ContextualValueApplicability.getApplicabilityScore st value ctx > 3/10) ∧
    (ContextualValueApplicability.scoreManifestationMatch
        ⟨"emotional_support", "Respond with empathy to emotional expressions"⟩
        ctxNegSentiment = 9/10 ∧
      ContextualValueApplicability.scoreManifestations userWellbeingValue ctxNegSentiment
        = 9/10 ∧
      ContextualValueApplicability.getApplicabilityScore emptyCVA userWellbeingValue
        ctxNegSentiment = 139/200 ∧
      ContextualValueApplicability.isRelevant emptyCVA userWellbeingValue ctxNegSentiment
        = true) := by
  refine ⟨fun st value ctx hm => ⟨?_, ?_⟩, fun st value ctx => ?_, ?_, ?_, ?_, ?_⟩
  · rcases hval : value.manifestations with _ | ⟨m, ms⟩
    · exact absurd hval hm
    · constructor
      · simpa [ContextualValueApplicability.scoreManifestations, hval] using
          foldlMax_mem (ContextualValueApplicability.scoreManifestationMatch m ctx)
            (ms.map (fun m => ContextualValueApplicability.scoreManifestationMatch m ctx))
      · intro s hs
        simp only [ContextualValueApplicability.scoreManifestations, hval, List.map_cons] at hs ⊢
        exact le_foldlMax _ _ s hs
  · simp only [ContextualValueApplicability.getApplicabilityScore]
    ring_nf
  · simp [ContextualValueApplicability.isRelevant]
  · norm_num +decide [ContextualValueApplicability.scoreManifestationMatch, ctxNegSentiment,
      ContextualValueApplicability.containsKeywords, hasIntentionOfType, sensitiveTopics]
  · norm_num +decide [ContextualValueApplicability.scoreManifestations, userWellbeingValue,
      wellbeingManifestations, ContextualValueApplicability.scoreManifestationMatch,
      ctxNegSentiment, ContextualValueApplicability.containsKeywords, hasIntentionOfType,
      sensitiveTopics, max_def]
  · norm_num +decide [ContextualValueApplicability.getApplicabilityScore, emptyCVA,
      ContextualValueApplicability.applyEnhancements, lookupA, clamp01,
      ContextualValueApplicability.scoreManifestations, userWellbeingValue,
      wellbeingManifestations, ContextualValueApplicability.scoreManifestationMatch,
      ctxNegSentiment, ContextualValueApplicability.containsKeywords, hasIntentionOfType,
      sensitiveTopics, max_def, min_def]
  · norm_num +decide [ContextualValueApplicability.isRelevant,
      ContextualValueApplicability.getApplicabilityScore, emptyCVA,
      ContextualValueApplicability.applyEnhancements, lookupA, clamp01,
      ContextualValueApplicability.scoreManifestations, userWellbeingValue,
      wellbeingManifestations, ContextualValueApplicability.scoreManifestationMatch,
      ctxNegSentiment, ContextualValueApplicability.containsKeywords, hasIntentionOfType,
      sensitiveTopics, max_def, min_def]

/-- Witness for C4: the formula conjunct applied to `user_wellbeing` in the
negative-sentiment context, its nonempty-manifestation hypothesis discharged
concretely. -/
theorem C4_witness :
    ContextualValueApplicability.getApplicabilityScore emptyCVA userWellbeingValue
        ctxNegSentiment =
      clamp01 ((1/2) * userWellbeingValue.importance
        + (3/10) * ContextualValueApplicability.scoreManifestations userWellbeingValue
            ctxNegSentiment
        + (1/5) * ContextualValueApplicability.applyEnhancements emptyCVA
            userWellbeingValue.id ctxNegSentiment) :=
  (C4_applicability_score_formula_and_wellbeing_scenario.1 emptyCVA userWellbeingValue
    ctxNegSentiment (by simp [userWellbeingValue, wellbeingManifestations])).2

/-! C1: conflict resolution symmetry. -/

theorem getCustomPriority_eq_zero_of_no_custom (h : ValueHierarchy)
    (hcp : h.customPriorities = []) (a b : String) (ctx : Context) :
    h.getCustomPriorityInContext a b ctx = 0 := by
  simp [ValueHierarchy.getCustomPriorityInContext, hcp, lookupA]

theorem resolveConflict_comm_of_importance_ne (h : ValueHierarchy)
    (hcp : h.customPriorities = []) (v1 v2 : CoreValue)
    (himp : v1.importance ≠ v2.importance) (ctx : Context) :
    h.resolveConflict v1 v2 ctx = h.resolveConflict v2 v1 ctx := by
  simp only [ValueHierarchy.resolveConflict,
    getCustomPriority_eq_zero_of_no_custom h hcp, ne_eq, not_true_eq_false, if_false,
    reduceIte]
  set a1 := ValueHierarchy.getValueApplicability v1 ctx with ha1
  set a2 := ValueHierarchy.getValueApplicability v2 ctx with ha2
  by_cases habs : |a1 - a2| > 3/10
  · have habs' : |a2 - a1| > 3/10 := by rwa [abs_sub_comm]
    rw [if_pos habs, if_pos habs']
    by_cases hgt : a1 - a2 > 0
    · rw [if_pos hgt, if_neg (by linarith : ¬(a2 - a1 > 0))]
    · have hne : a1 - a2 ≠ 0 := by
        intro h0
        rw [h0] at habs
        norm_num at habs
      have hlt : a1 - a2 < 0 := lt_of_le_of_ne (not_lt.mp hgt) hne
      rw [if_neg hgt, if_pos (by linarith : a2 - a1 > 0)]
  · have habs' : ¬(|a2 - a1| > 3/10) := by rwa [abs_sub_comm]
    rw [if_neg habs, if_neg habs']
    rcases lt_or_gt_of_ne himp with hlt | hlt
    · rw [if_neg (not_le.mpr hlt), if_pos (le_of_lt hlt)]
    · rw [if_pos (le_of_lt hlt), if_neg (not_le.mpr hlt)]

theorem coreValues_importance_pairwise :
    coreValues.Pairwise (fun a b => a.importance ≠ b.importance) := by
  norm_num [coreValues, humanAgencyValue, truthfulnessValue, userWellbeingValue,
    privacySecurityValue, inclusivityValue, authenticityValue]

/-- **C1 (amended).**  Provided no custom priority override has been
installed, `resolveConflict` is symmetric on the core value set: for any two
distinct core values (their importances are pairwise distinct) and any
context, both argument orders return the same winner.  Determinism is
immediate: the embedded resolution is a pure function of the hierarchy, the
two values and the context. -/
theorem C1_resolveConflict_symmetric_without_custom_priorities
    (h : ValueHierarchy) (hcp : h.customPriorities = [])
    (v1 : CoreValue) (hv1 : v1 ∈ coreValues) (v2 : CoreValue) (hv2 : v2 ∈ coreValues)
    (hne : v1 ≠ v2) (ctx : Context) :
    h.resolveConflict v1 v2 ctx = h.resolveConflict v2 v1 ctx :=
  resolveConflict_comm_of_importance_ne h hcp v1 v2
    (List.Pairwise.forall (fun _ _ hab => Ne.symm hab) coreValues_importance_pairwise
      hv1 hv2 hne) ctx

/-- Witness for C1: symmetry at the concrete pair `human_agency` /
`truthfulness` in the empty context, over a hierarchy with no custom
priorities. -/
theorem C1_witness :
    (ValueHierarchy.ofValues coreValues).resolveConflict humanAgencyValue truthfulnessValue
        ctxEmpty =
      (ValueHierarchy.ofValues coreValues).resolveConflict truthfulnessValue humanAgencyValue
        ctxEmpty :=
  C1_resolveConflict_symmetric_without_custom_priorities
    (ValueHierarchy.ofValues coreValues) rfl
    humanAgencyValue (by simp [coreValues])
    truthfulnessValue (by simp [coreValues])
    (by simp [humanAgencyValue, truthfulnessValue]) ctxEmpty

theorem cex_applicability_agency :
    ValueHierarchy.getValueApplicability humanAgencyValue ctxEmpty = 11/20 := by
  norm_num +decide [ValueHierarchy.getValueApplicability, humanAgencyValue,
    humanAgencyManifestations, ValueHierarchy.getManifestationContextRelevance,
    ctxEmpty, hasIntentionOfType, sensitiveTopics, max_def]

theorem cex_applicability_wellbeing :
    ValueHierarchy.getValueApplicability userWellbeingValue ctxEmpty = 11/20 := by
  norm_num +decide [ValueHierarchy.getValueApplicability, userWellbeingValue,
    wellbeingManifestations, ValueHierarchy.getManifestationContextRelevance,
    ctxEmpty, hasIntentionOfType, sensitiveTopics, max_def]

theorem cex_custom_priority_forward :
    cexHierarchy.getCustomPriorityInContext "user_wellbeing" "human_agency" ctxEmpty = 1 := by
  simp +decide [cexHierarchy, ValueHierarchy.getCustomPriorityInContext, lookupA,
    ValueHierarchy.findPatternPriority]

theorem cex_custom_priority_backward :
    cexHierarchy.getCustomPriorityInContext "human_agency" "user_wellbeing" ctxEmpty = 0 := by
  simp +decide [cexHierarchy, ValueHierarchy.getCustomPriorityInContext, lookupA,
    ValueHierarchy.findPatternPriority]

/-- **C1 (counterexample).**  With a custom priority installed for the pair
(`user_wellbeing` over `human_agency`), `resolveConflict` is not symmetric:
in the empty context, `resolveConflict(user_wellbeing, human_agency)` returns
`user_wellbeing` (the override fires), while
`resolveConflict(human_agency, user_wellbeing)` returns `human_agency` (the
override is keyed one-directionally, the applicabilities tie at `0.55`, and
base importance decides).  The state is reachable: `setCustomPriority` on the
fresh hierarchy produces exactly it. -/
theorem C1_resolveConflict_not_symmetric :
    ValueHierarchy.setCustomPriority (ValueHierarchy.ofValues coreValues)
        "user_wellbeing" "human_agency" 1 none = some cexHierarchy ∧
    cexHierarchy.resolveConflict userWellbeingValue humanAgencyValue ctxEmpty
      = userWellbeingValue ∧
    cexHierarchy.resolveConflict humanAgencyValue userWellbeingValue ctxEmpty
      = humanAgencyValue ∧
    userWellbeingValue ≠ humanAgencyValue := by
  refine ⟨?_, ?_, ?_, ?_⟩
  · simp +decide [ValueHierarchy.setCustomPriority, ValueHierarchy.ofValues, cexHierarchy,
      coreValues, humanAgencyValue, truthfulnessValue, userWellbeingValue,
      privacySecurityValue, inclusivityValue, authenticityValue, lookupA, setA]
  · have hid1 : userWellbeingValue.id = "user_wellbeing" := rfl
    have hid2 : humanAgencyValue.id = "human_agency" := rfl
    simp only [ValueHierarchy.resolveConflict, hid1, hid2, cex_custom_priority_forward]
    norm_num
  · have hid1 : userWellbeingValue.id = "user_wellbeing" := rfl
    have hid2 : humanAgencyValue.id = "human_agency" := rfl
    have himp1 : humanAgencyValue.importance = 95/100 := rfl
    have himp2 : userWellbeingValue.importance = 85/100 := rfl
    simp only [ValueHierarchy.resolveConflict, hid1, hid2, cex_custom_priority_backward,
      cex_applicability_agency, cex_applicability_wellbeing, himp1, himp2]
    norm_num
  · simp [humanAgencyValue, userWellbeingValue]

/-! C2: bounded collections of the working memory. -/

theorem refresh_conversationState (now : Nat) (ctx : ConversationContext) :
    (WorkingMemory.refreshFocusState now ctx).conversationState = ctx.conversationState := rfl

theorem refresh_recentMessages (now : Nat) (ctx : ConversationContext) :
    (WorkingMemory.refreshFocusState now ctx).recentMessages = ctx.recentMessages := rfl

theorem refresh_recentIntentions (now : Nat) (ctx : ConversationContext) :
    (WorkingMemory.refreshFocusState now ctx).currentFocus.recentIntentions
      = ctx.currentFocus.recentIntentions := rfl

theorem length_updateIntentions_le (ints rec : List DIntention) :
    (WorkingMemory.updateIntentions ints rec).length ≤ 5 := by
  simp [WorkingMemory.updateIntentions]

theorem length_updateTopics_le (m : WMessage) (ts : List String) :
    (WorkingMemory.updateTopics m ts).length ≤ 5 := by
  unfold WorkingMemory.updateTopics
  simp only []
  split_ifs with h
  · simp only [List.length_drop]
    omega
  · omega

/-- **C2 (amended).**  `addMessage` keeps the recent-message buffer at 10 and
the recent-intentions list at 5 (given they were within their caps) and
leaves at most 5 active topics; `focusOnEntity` preserves all three caps;
`reset` re-establishes them.  `focusOnTopic`, however, only moves/appends the
topic — it leaves messages and intentions untouched but can grow the
active-topics list past its cap by one (see the counterexample). -/
theorem C2_bounded_collections_after_operations :
    (∀ (now : Nat) (msg : WMessage) (ctx : ConversationContext),
        ctx.recentMessages.length ≤ 10 →
        ctx.currentFocus.recentIntentions.length ≤ 5 →
        (WorkingMemory.addMessage now msg ctx).recentMessages.length ≤ 10 ∧
        (WorkingMemory.addMessage now msg ctx).currentFocus.recentIntentions.length ≤ 5 ∧
        (WorkingMemory.addMessage now msg ctx).conversationState.activeTopics.length ≤ 5) ∧
    (∀ (now : Nat) (e : REntity) (ctx : ConversationContext),
        ctx.recentMessages.length ≤ 10 →
        ctx.currentFocus.recentIntentions.length ≤ 5 →
        ctx.conversationState.activeTopics.length ≤ 5 →
        (WorkingMemory.focusOnEntity now e ctx).recentMessages.length ≤ 10 ∧
        (WorkingMemory.focusOnEntity now e ctx).currentFocus.recentIntentions.length ≤ 5 ∧
        (WorkingMemory.focusOnEntity now e ctx).conversationState.activeTopics.length ≤ 5) ∧
    (∀ (now : Nat) (ctx : ConversationContext),
        (WorkingMemory.reset now ctx).recentMessages.length ≤ 10 ∧
        (WorkingMemory.reset now ctx).currentFocus.recentIntentions.length ≤ 5 ∧
        (WorkingMemory.reset now ctx).conversationState.activeTopics.length ≤ 5) ∧
    (∀ (now : Nat) (t : String) (ctx : ConversationContext),
        (WorkingMemory.focusOnTopic now t ctx).recentMessages = ctx.recentMessages ∧
        (WorkingMemory.focusOnTopic now t ctx).currentFocus.recentIntentions
          = ctx.currentFocus.recentIntentions ∧
        (WorkingMemory.focusOnTopic now t ctx).conversationState.activeTopics.length
          ≤ ctx.conversationState.activeTopics.length + 1) := by
  refine ⟨fun now msg ctx h10 h5 => ?_, fun now e ctx h10 h5 ht => ?_,
          fun now ctx => ?_, fun now t ctx => ?_⟩
  · unfold WorkingMemory.addMessage
    simp only [refresh_conversationState, refresh_recentMessages, refresh_recentIntentions]
    split_ifs <;>
      refine ⟨?_, ?_, ?_⟩ <;>
      simp_all [length_updateIntentions_le, length_updateTopics_le,
        WorkingMemory.maxRecentMessages, List.length_append]
  · unfold WorkingMemory.focusOnEntity
    rcases hkey : WorkingMemory.entityKeyOf e with ⟨k, nv⟩
    rcases hlook : lookupA ctx.entityMap k with _ | e' <;>
      simp_all [refresh_conversationState, refresh_recentMessages, refresh_recentIntentions]
  · simp [WorkingMemory.reset, WorkingMemory.initialContext]
  · refine ⟨rfl, rfl, ?_⟩
    have : (WorkingMemory.focusOnTopic now t ctx).conversationState.activeTopics
        = (ctx.conversationState.activeTopics.filter fun x => x ≠ t) ++ [t] := rfl
    rw [this]
    simp only [List.length_append, List.length_cons, List.length_nil]
    have := List.length_filter_le (fun x => decide (x ≠ t)) ctx.conversationState.activeTopics
    omega

/-- **C2 (counterexample).**  Six `focusOnTopic` calls with distinct topics on
a fresh working memory leave 6 active topics, exceeding the cap of 5: the
push in `focusOnTopic` is not followed by a cap check. -/
theorem C2_focusOnTopic_exceeds_topic_cap :
    ((["t1", "t2", "t3", "t4", "t5", "t6"].foldl
        (fun ctx topic => WorkingMemory.focusOnTopic 0 topic ctx)
        (WorkingMemory.initialContext 0)).conversationState.activeTopics.length = 6) ∧
    ¬(6 ≤ 5) := by
  have hstep : ∀ (now : Nat) (t : String) (c : ConversationContext),
      (WorkingMemory.focusOnTopic now t c).conversationState.activeTopics
        = (c.conversationState.activeTopics.filter fun x => x ≠ t) ++ [t] := fun _ _ _ => rfl
  refine ⟨?_, by omega⟩
  simp only [List.foldl_cons, List.foldl_nil]
  rw [hstep, hstep, hstep, hstep, hstep, hstep]
  simp +decide [WorkingMemory.initialContext]

/-- Witness for C2: the `addMessage` cap conjunct applied to a fresh working
memory and a message with two entities, two intentions and one topic. -/
theorem C2_witness :
    ((WorkingMemory.initialContext 0).recentMessages.length ≤ 10 ∧
     (WorkingMemory.initialContext 0).currentFocus.recentIntentions.length ≤ 5) ∧
    ((WorkingMemory.addMessage 5 ⟨"hello about AI", "user", 5,
        [⟨"topic", "AI", none, 0, 2, 9/10, [], none, none, none⟩],
        [⟨.greeting, 9/10, none, .noMeta⟩], none⟩
        (WorkingMemory.initialContext 0)).recentMessages.length ≤ 10 ∧
     (WorkingMemory.addMessage 5 ⟨"hello about AI", "user", 5,
        [⟨"topic", "AI", none, 0, 2, 9/10, [], none, none, none⟩],
        [⟨.greeting, 9/10, none, .noMeta⟩], none⟩
        (WorkingMemory.initialContext 0)).currentFocus.recentIntentions.length ≤ 5 ∧
     (WorkingMemory.addMessage 5 ⟨"hello about AI", "user", 5,
        [⟨"topic", "AI", none, 0, 2, 9/10, [], none, none, none⟩],
        [⟨.greeting, 9/10, none, .noMeta⟩], none⟩
        (WorkingMemory.initialContext 0)).conversationState.activeTopics.length ≤ 5) :=
  ⟨⟨by simp [WorkingMemory.initialContext], by simp [WorkingMemory.initialContext]⟩,
   C2_bounded_collections_after_operations.1 5 _ (WorkingMemory.initialContext 0)
     (by simp [WorkingMemory.initialContext]) (by simp [WorkingMemory.initialContext])⟩

/-! C6 / C8 / C9: the intention detector. -/

theorem insertionSort_ne_nil {α : Type} (r : α → α → Prop) [DecidableRel r]
    {l : List α} (h : l ≠ []) : l.insertionSort r ≠ [] := by
  intro hs
  apply h
  have hp := List.perm_insertionSort r l
  rw [hs] at hp
  exact hp.symm.eq_nil

theorem detectIntentionsBase_ne_nil (rx : String → String → Bool) (text : String)
    (entities : Option (List REntity)) :
    IntentionDetector.detectIntentionsBase rx text entities ≠ [] := by
  unfold IntentionDetector.detectIntentionsBase
  simp only []
  split_ifs <;> simp_all

/-- **C6.**  For every regex oracle, input string and entity list,
`detectIntentions` returns a non-empty list (the `unknown` fallback fires when
nothing else was detected), sorted in descending order of confidence. -/
theorem C6_detectIntentions_nonempty_and_sorted (rx : String → String → Bool)
    (text : String) (entities : Option (List REntity)) :
    IntentionDetector.detectIntentions rx text entities ≠ [] ∧
    (IntentionDetector.detectIntentions rx text entities).Sorted
      (fun a b => b.confidence ≤ a.confidence) :=
  ⟨insertionSort_ne_nil _ (detectIntentionsBase_ne_nil rx text entities),
   List.sorted_insertionSort _ _⟩

theorem patternPass_mem (rx : String → String → Bool) (text : String)
    (es : Option (List REntity)) (l : List (IntentionType × List String)) :
    ∀ i ∈ IntentionDetector.patternPass rx text es l,
      (∃ p, i.meta = .fromPattern p) ∧ i.confidence = 9/10 := by
  induction l with
  | nil => simp [IntentionDetector.patternPass]
  | cons tp rest ih =>
    rcases tp with ⟨t, pats⟩
    intro i hi
    rw [IntentionDetector.patternPass, List.mem_append] at hi
    rcases hi with hi | hi
    · rcases List.mem_map.mp hi with ⟨p, _, hp⟩
      subst hp
      exact ⟨⟨p, rfl⟩, rfl⟩
    · exact ih i hi

theorem patternPass_eq_nil (rx : String → String → Bool) (text : String)
    (es : Option (List REntity)) (l : List (IntentionType × List String))
    (h : ∀ tp ∈ l, ∀ p ∈ tp.2, rx p text = false) :
    IntentionDetector.patternPass rx text es l = [] := by
  induction l with
  | nil => simp [IntentionDetector.patternPass]
  | cons tp rest ih =>
    rcases tp with ⟨t, pats⟩
    rw [IntentionDetector.patternPass]
    have h1 : pats.filter (fun p => rx p text) = [] := by
      rw [List.filter_eq_nil]
      intro p hp
      simp [h (t, pats) (List.mem_cons_self _ _) p hp]
    rw [h1]
    simp only [List.map_nil, List.nil_append]
    exact ih fun tp htp p hp => h tp (List.mem_cons.mpr (Or.inr htp)) p hp

theorem keywordPass_mem (lt : String) (es : Option (List REntity)) :
    ∀ (l : List (IntentionType × List String)) (acc : List DIntention),
      ∀ i ∈ IntentionDetector.keywordPass lt es l acc,
        i ∈ acc ∨ ∃ ks, i.meta = .fromKeywords ks ∧
          i.confidence = min (3/10 + (ks.length : ℚ) * (2/10)) (17/20) := by
  intro l
  induction l with
  | nil => intro acc i hi; exact Or.inl (by simpa [IntentionDetector.keywordPass] using hi)
  | cons tk rest ih =>
    rcases tk with ⟨t, kws⟩
    intro acc i hi
    rw [IntentionDetector.keywordPass] at hi
    simp only [] at hi
    split_ifs at hi with hskip hmatch
    · exact ih acc i hi
    · rcases ih _ i hi with hmem | hex
      · rcases List.mem_append.mp hmem with hmem | hmem
        · exact Or.inl hmem
        · rw [List.mem_singleton] at hmem
          subst hmem
          exact Or.inr ⟨_, rfl, rfl⟩
      · exact Or.inr hex
    · exact ih acc i hi

theorem keywordPass_eq_nil (lt : String) (es : Option (List REntity))
    (l : List (IntentionType × List String))
    (h : ∀ tk ∈ l, ∀ kw ∈ tk.2, hasWholeWord kw lt = false) :
    IntentionDetector.keywordPass lt es l [] = [] := by
  induction l with
  | nil => simp [IntentionDetector.keywordPass]
  | cons tk rest ih =>
    rcases tk with ⟨t, kws⟩
    rw [IntentionDetector.keywordPass]
    have h1 : kws.filter (fun kw => hasWholeWord kw lt) = [] := by
      rw [List.filter_eq_nil]
      intro kw hkw
      simp [h (t, kws) (List.mem_cons_self _ _) kw hkw]
    simp only [List.any_nil, Bool.false_eq_true, if_false, h1, List.length_nil,
      Nat.lt_irrefl, reduceIte]
    exact ih fun tk htk kw hkw => h tk (List.mem_cons.mpr (Or.inr htk)) kw hkw

theorem P_of_patternPass (rx : String → String → Bool) (text : String)
    (es : Option (List REntity)) (i : DIntention)
    (hi : i ∈ IntentionDetector.patternPass rx text es intentionPatterns) :
    (∀ p, i.meta = .fromPattern p → i.confidence = 9/10) ∧
    (∀ ks, i.meta = .fromKeywords ks →
      i.confidence = min (3/10 + (ks.length : ℚ) * (2/10)) (17/20)) ∧
    i.confidence ≤ 1 := by
  rcases patternPass_mem rx text es intentionPatterns i hi with ⟨⟨p, hp⟩, hc⟩
  refine ⟨fun _ _ => hc, fun ks hks => ?_, by rw [hc]; norm_num⟩
  rw [hp] at hks
  cases hks

theorem P_of_keywordPass (rx : String → String → Bool) (text : String)
    (es : Option (List REntity)) (i : DIntention)
    (hi : i ∈ IntentionDetector.keywordPass (trimStr (toLowerStr text)) es intentionKeywords
            (IntentionDetector.patternPass rx text es intentionPatterns)) :
    (∀ p, i.meta = .fromPattern p → i.confidence = 9/10) ∧
    (∀ ks, i.meta = .fromKeywords ks →
      i.confidence = min (3/10 + (ks.length : ℚ) * (2/10)) (17/20)) ∧
    i.confidence ≤ 1 := by
  rcases keywordPass_mem (trimStr (toLowerStr text)) es intentionKeywords _ i hi with hml | ⟨ks, hks, hcf⟩
  · exact P_of_patternPass rx text es i hml
  · refine ⟨fun p hp => ?_, fun ks' hks' => ?_, ?_⟩
    · rw [hks] at hp; cases hp
    · rw [hks] at hks'
      cases hks'
      exact hcf
    · rw [hcf]
      exact le_trans (min_le_right _ _) (by norm_num)

theorem detectIntentionsBase_mem (rx : String → String → Bool) (text : String)
    (es : Option (List REntity)) :
    ∀ i ∈ IntentionDetector.detectIntentionsBase rx text es,
      (∀ p, i.meta = .fromPattern p → i.confidence = 9/10) ∧
      (∀ ks, i.meta = .fromKeywords ks →
        i.confidence = min (3/10 + (ks.length : ℚ) * (2/10)) (17/20)) ∧
      i.confidence ≤ 1 := by
  intro i hi
  unfold IntentionDetector.detectIntentionsBase at hi
  simp only [] at hi
  split_ifs at hi
  all_goals
    first
    | exact P_of_keywordPass rx text es i hi
    | exact P_of_patternPass rx text es i hi
    | (rw [List.mem_singleton] at hi
       subst hi
       exact ⟨fun p hp => IntentionMeta.noConfusion hp,
              fun ks hks => IntentionMeta.noConfusion hks, by norm_num⟩)
    | (rcases List.mem_append.mp hi with hj | hj
       · first
         | exact P_of_keywordPass rx text es i hj
         | exact P_of_patternPass rx text es i hj
       · rw [List.mem_singleton] at hj
         subst hj
         exact ⟨fun p hp => IntentionMeta.noConfusion hp,
                fun ks hks => IntentionMeta.noConfusion hks, by norm_num⟩)

/-- When no regex fires, no keyword matches as a whole word, and the text does
not end in `?`, the detector returns exactly the `unknown` intention at
confidence `1.0`. -/
theorem detect_no_match_eq_fallback (rx : String → String → Bool) (text : String)
    (es : Option (List REntity))
    (h1 : ∀ tp ∈ intentionPatterns, ∀ p ∈ tp.2, rx p text = false)
    (h2 : ∀ tk ∈ intentionKeywords, ∀ kw ∈ tk.2, hasWholeWord kw (trimStr (toLowerStr text)) = false)
    (h3 : endsWithQmark text = false) :
    IntentionDetector.detectIntentions rx text es
      = [{ itype := .unknown, confidence := 1, relatedEntities := es, meta := .noMeta }] := by
  unfold IntentionDetector.detectIntentions IntentionDetector.detectIntentionsBase
  rw [patternPass_eq_nil rx text es intentionPatterns h1]
  simp only [h3, keywordPass_eq_nil (trimStr (toLowerStr text)) es intentionKeywords h2,
    Bool.false_and, Bool.false_eq_true, if_false, List.isEmpty_nil, if_true, reduceIte]
  rfl

theorem mem_detectIntentions_iff (rx : String → String → Bool) (text : String)
    (es : Option (List REntity)) (i : DIntention) :
    i ∈ IntentionDetector.detectIntentions rx text es ↔
      i ∈ IntentionDetector.detectIntentionsBase rx text es :=
  (List.perm_insertionSort _ _).mem_iff

/-- **C8.**  If no intention regex matches the text, no intention keyword
occurs as a whole word in the lower-cased trimmed text, and the text does not
end with `?`, then `detectIntentions` returns exactly one intention, of type
`unknown`, with confidence `1.0`; and `1.0` is an upper bound for the
confidence of every intention the detector ever returns, so the fallback
outranks any other score in the sorted output. -/
theorem C8_unknown_fallback_is_sole_and_maximal :
    (∀ (rx : String → String → Bool) (text : String) (es : Option (List REntity)),
      (∀ tp ∈ intentionPatterns, ∀ p ∈ tp.2, rx p text = false) →
      (∀ tk ∈ intentionKeywords, ∀ kw ∈ tk.2,
        hasWholeWord kw (trimStr (toLowerStr text)) = false) →
      endsWithQmark text = false →
      IntentionDetector.detectIntentions rx text es
        = [{ itype := .unknown, confidence := 1, relatedEntities := es, meta := .noMeta }]) ∧
    (∀ (rx : String → String → Bool) (text : String) (es : Option (List REntity)) i,
      i ∈ IntentionDetector.detectIntentions rx text es → i.confidence ≤ 1) :=
  ⟨detect_no_match_eq_fallback,
   fun rx text es i hi =>
     (detectIntentionsBase_mem rx text es i
       ((mem_detectIntentions_iff rx text es i).mp hi)).2.2⟩

/-- Witness for C8: the constant-false oracle and the text `"zzz"` (no
keyword, no question mark) produce exactly the unknown intention. -/
theorem C8_witness :
    IntentionDetector.detectIntentions (fun _ _ => false) "zzz" none
      = [{ itype := .unknown, confidence := 1, relatedEntities := none,
           meta := .noMeta }] :=
  C8_unknown_fallback_is_sole_and_maximal.1 (fun _ _ => false) "zzz" none
    (by simp) (by decide) (by decide)

/-- **C9.**  Every intention produced by the regex-pattern first pass carries
confidence `0.9`, every keyword-pass intention carries
`min(0.3 + 0.2·matches, 0.85) ≤ 0.85`, and in the confidence-sorted output no
keyword-produced intention ever precedes a pattern-produced one. -/
theorem C9_pattern_intentions_precede_keyword_intentions :
    (∀ (rx : String → String → Bool) (text : String) (es : Option (List REntity)) i,
      i ∈ IntentionDetector.detectIntentions rx text es →
      (∀ p, i.meta = .fromPattern p → i.confidence = 9/10) ∧
      (∀ ks, i.meta = .fromKeywords ks →
        i.confidence = min (3/10 + (ks.length : ℚ) * (2/10)) (17/20) ∧
        i.confidence ≤ 17/20)) ∧
    (∀ (rx : String → String → Bool) (text : String) (es : Option (List REntity)),
      (IntentionDetector.detectIntentions rx text es).Pairwise
        (fun a b => ¬((∃ ks, a.meta = .fromKeywords ks) ∧ (∃ p, b.meta = .fromPattern p)))) := by
  have hfact : ∀ (rx : String → String → Bool) (text : String) (es : Option (List REntity)) i,
      i ∈ IntentionDetector.detectIntentions rx text es →
      (∀ p, i.meta = .fromPattern p → i.confidence = 9/10) ∧
      (∀ ks, i.meta = .fromKeywords ks →
        i.confidence = min (3/10 + (ks.length : ℚ) * (2/10)) (17/20) ∧
        i.confidence ≤ 17/20) := by
    intro rx text es i hi
    have hmem := detectIntentionsBase_mem rx text es i
      ((mem_detectIntentions_iff rx text es i).mp hi)
    refine ⟨hmem.1, fun ks hks => ⟨hmem.2.1 ks hks, ?_⟩⟩
    rw [hmem.2.1 ks hks]
    exact min_le_right _ _
  refine ⟨hfact, fun rx text es => ?_⟩
  have hsorted : (IntentionDetector.detectIntentions rx text es).Sorted
      (fun a b => b.confidence ≤ a.confidence) := List.sorted_insertionSort _ _
  refine List.Pairwise.imp_of_mem ?_ hsorted
  intro a b ha hb hle ⟨⟨ks, hks⟩, ⟨p, hp⟩⟩
  have hbconf := (hfact rx text es b hb).1 p hp
  have haconf := ((hfact rx text es a ha).2 ks hks).2
  rw [hbconf] at hle
  have : (9 : ℚ)/10 ≤ 17/20 := le_trans hle haconf
  norm_num at this

/-- Witness for C9: the member-facts conjunct applied to the concrete
`unknown` intention returned for the constant-false oracle on `"zzz"`, its
membership hypothesis discharged by computing the detector's output. -/
theorem C9_witness :
    (∀ p, (IntentionMeta.noMeta = IntentionMeta.fromPattern p) → (1 : ℚ) = 9/10) ∧
    (∀ ks, (IntentionMeta.noMeta = IntentionMeta.fromKeywords ks) →
      (1 : ℚ) = min (3/10 + (ks.length : ℚ) * (2/10)) (17/20) ∧ (1 : ℚ) ≤ 17/20) :=
  C9_pattern_intentions_precede_keyword_intentions.1 (fun _ _ => false) "zzz" none
    { itype := .unknown, confidence := 1, relatedEntities := none, meta := .noMeta }
    (by rw [detect_no_match_eq_fallback (fun _ _ => false) "zzz" none
          (by simp) (by decide) (by decide)]
        exact List.mem_singleton_self _)

/-! C7 / C10: intention aging and salience decay. -/

/-- **C7 (counterexample).**  An active intention with confidence `0.1` whose
last detection lies 6 minutes in the past keeps confidence `0.1` after the
lifespan update — not `0.1 · 0.8 = 0.08` — because the decay is floored at
`0.1`. -/
theorem C7_aging_confidence_not_bare_multiplication :
    IntentionRecognizer.updateIntentionLifespans 360000
        [("i1", ⟨"i1", "information_request", 1/10, "active", 0, 0, []⟩)]
      = [("i1", ⟨"i1", "information_request", 1/10, "active", 0, 0, []⟩)] ∧
    (1/10 : ℚ) ≠ (1/10) * (8/10) := by
  constructor
  · norm_num [IntentionRecognizer.updateIntentionLifespans, List.filterMap_cons,
      List.filterMap_nil, max_def]
  · norm_num

/-- **C7 (amended).**  On each lifespan update, every active intention whose
time since last detection exceeds 10 minutes is removed; every intention
between 5 and 10 minutes old survives with confidence
`max(0.1, 0.8 · confidence)` (the `×0.8` decay, floored at `0.1`); every
younger intention survives unchanged. -/
theorem C7_intention_lifespan_update
    (now : Nat) (l : List (String × UserIntention)) :
    (∀ e ∈ IntentionRecognizer.updateIntentionLifespans now l,
      (now : ℤ) - (e.2.lastDetected : ℤ) ≤ 10 * 60 * 1000) ∧
    (∀ e ∈ l, 5 * 60 * 1000 < (now : ℤ) - (e.2.lastDetected : ℤ) →
      (now : ℤ) - (e.2.lastDetected : ℤ) ≤ 10 * 60 * 1000 →
      (e.1, { e.2 with confidence := max (1/10) (e.2.confidence * (8/10)) })
        ∈ IntentionRecognizer.updateIntentionLifespans now l) ∧
    (∀ e ∈ l, (now : ℤ) - (e.2.lastDetected : ℤ) ≤ 5 * 60 * 1000 →
      e ∈ IntentionRecognizer.updateIntentionLifespans now l) := by
  refine ⟨?_, ?_, ?_⟩
  · intro e he
    unfold IntentionRecognizer.updateIntentionLifespans at he
    rcases List.mem_filterMap.mp he with ⟨a, ha, hfa⟩
    simp only [] at hfa
    by_cases h10 : (now : ℤ) - (a.2.lastDetected : ℤ) > 10 * 60 * 1000
    · rw [if_pos h10] at hfa
      cases hfa
    · rw [if_neg h10] at hfa
      by_cases h5 : (now : ℤ) - (a.2.lastDetected : ℤ) > 5 * 60 * 1000
      · rw [if_pos h5] at hfa
        rcases Option.some_injective _ hfa with rfl
        dsimp only
        omega
      · rw [if_neg h5] at hfa
        rcases Option.some_injective _ hfa with rfl
        omega
  · intro e he h5 h10
    refine List.mem_filterMap.mpr ⟨e, he, ?_⟩
    simp only []
    rw [if_neg (not_lt.mpr h10), if_pos h5]
  · intro e he hfresh
    refine List.mem_filterMap.mpr ⟨e, he, ?_⟩
    simp only []
    rw [if_neg (by omega : ¬((now : ℤ) - (e.2.lastDetected : ℤ) > 10 * 60 * 1000)),
      if_neg (not_lt.mpr hfresh)]

/-- Witness for C7: an intention 6 minutes old is decayed to
`max(0.1, 0.8 · 0.5) = 0.4`, and one 1 minute old survives unchanged. -/
theorem C7_witness :
    ("a", (⟨"a", "task_request", max (1/10) ((1/2) * (8/10)), "active", 0, 300000,
        []⟩ : UserIntention))
      ∈ IntentionRecognizer.updateIntentionLifespans 660000
        [("a", ⟨"a", "task_request", 1/2, "active", 0, 300000, []⟩),
         ("b", ⟨"b", "small_talk", 1/2, "active", 0, 600000, []⟩)] ∧
    ("b", (⟨"b", "small_talk", 1/2, "active", 0, 600000, []⟩ : UserIntention))
      ∈ IntentionRecognizer.updateIntentionLifespans 660000
        [("a", ⟨"a", "task_request", 1/2, "active", 0, 300000, []⟩),
         ("b", ⟨"b", "small_talk", 1/2, "active", 0, 600000, []⟩)] :=
  ⟨(C7_intention_lifespan_update 660000 _).2.1
     ("a", ⟨"a", "task_request", 1/2, "active", 0, 300000, []⟩)
     (by simp) (by norm_num) (by norm_num),
   (C7_intention_lifespan_update 660000 _).2.2
     ("b", ⟨"b", "small_talk", 1/2, "active", 0, 600000, []⟩)
     (by simp) (by norm_num)⟩

theorem mem_setA {κ β : Type} [BEq κ] {l : List (κ × β)} {k : κ} {v : β} :
    ∀ p ∈ setA l k v, p = (k, v) ∨ p ∈ l := by
  intro p hp
  unfold setA at hp
  split_ifs at hp
  · rcases List.mem_map.mp hp with ⟨q, hq, hfq⟩
    by_cases hqk : q.1 == k
    · rw [if_pos hqk] at hfq
      exact Or.inl hfq.symm
    · rw [if_neg hqk] at hfq
      exact Or.inr (hfq ▸ hq)
  · rcases List.mem_append.mp hp with hp | hp
    · exact Or.inr hp
    · exact Or.inl (List.mem_singleton.mp hp)

theorem lookupA_mem {κ β : Type} [BEq κ] [LawfulBEq κ] {l : List (κ × β)} {k : κ} {v : β}
    (h : lookupA l k = some v) : (k, v) ∈ l := by
  unfold lookupA at h
  cases hf : l.find? (fun p => p.1 == k) with
  | none => rw [hf] at h; cases h
  | some q =>
    rw [hf] at h
    rcases Option.map_eq_some'.mp h with ⟨q', hq', hv⟩
    rcases Option.some_injective _ hq' with rfl
    have hk : q.1 = k := by
      have := List.find?_some hf
      exact eq_of_beq this
    have hmem := List.mem_of_find?_eq_some hf
    rw [← hk, ← hv]
    simpa using hmem

/-- **C10.**  Decay never drives scores below `0.1`: every entity surviving a
cleanup pass either kept its salience or had it set to
`max(0.1, 0.95 · salience) ≥ 0.1`, and every intention surviving a lifespan
update either kept its confidence or had it set to
`max(0.1, 0.8 · confidence) ≥ 0.1`. -/
theorem C10_decay_floored_at_tenth :
    (∀ (now : Nat) (st : EntityTracker),
      ∀ p ∈ (EntityTracker.cleanupStaleEntities now st).entities,
        ∃ q ∈ st.entities, p.1 = q.1 ∧
          (p.2 = q.2 ∨ (∃ r : ℚ, p.2.salience = max (1/10) r) ∧ p.2.salience ≥ 1/10)) ∧
    (∀ (now : Nat) (l : List (String × UserIntention)),
      ∀ e ∈ IntentionRecognizer.updateIntentionLifespans now l,
        ∃ a ∈ l, e.1 = a.1 ∧
          (e.2.confidence = a.2.confidence ∨
            (e.2.confidence = max (1/10) (a.2.confidence * (8/10)) ∧
             e.2.confidence ≥ 1/10))) := by
  constructor
  · intro now st p hp
    unfold EntityTracker.cleanupStaleEntities at hp
    split_ifs at hp with hguard
    · exact ⟨p, hp, rfl, Or.inl rfl⟩
    · simp only [] at hp
      -- fold invariant: every entry of the accumulator traces to an original entry
      suffices hinv : ∀ (ls : List (String × ℚ))
          (acc : List (String × TEntity) × List (String × ℚ)),
          (∀ q ∈ acc.1, ∃ q0 ∈ st.entities, q.1 = q0.1 ∧
            (q.2 = q0.2 ∨ (∃ r : ℚ, q.2.salience = max (1/10) r) ∧ q.2.salience ≥ 1/10)) →
          ∀ q ∈ (ls.foldl (fun acc entry =>
              match lookupA acc.1 entry.1 with
              | none => acc
              | some entity =>
                let timeSinceLastMention : ℚ := (now : ℚ) - (entity.lastMentioned : ℚ)
                let newLifespan := entry.2 - timeSinceLastMention / (10 * 60 * 1000)
                if newLifespan ≤ 0 then (EntityTracker.eraseA acc.1 entry.1, acc.2)
                else
                  (setA acc.1 entry.1
                    { entity with salience := max (1/10) (entity.salience * (95/100)) },
                   acc.2 ++ [(entry.1, newLifespan)])) acc).1,
            ∃ q0 ∈ st.entities, q.1 = q0.1 ∧
              (q.2 = q0.2 ∨ (∃ r : ℚ, q.2.salience = max (1/10) r) ∧ q.2.salience ≥ 1/10) by
        exact hinv st.entityLifespan (st.entities, [])
          (fun q hq => ⟨q, hq, rfl, Or.inl rfl⟩) p hp
      intro ls
      induction ls with
      | nil => intro acc hacc q hq; exact hacc q hq
      | cons entry rest ih =>
        intro acc hacc q hq
        rw [List.foldl_cons] at hq
        refine ih _ ?_ q hq
        cases hlook : lookupA acc.1 entry.1 with
        | none => simpa [hlook] using hacc
        | some entity =>
          simp only [hlook]
          split_ifs with hdead
          · intro q' hq'
            exact hacc q' (List.mem_filter.mp hq').1
          · intro q' hq'
            rcases mem_setA q' hq' with rfl | hq'
            · rcases hacc (entry.1, entity) (lookupA_mem hlook) with ⟨q0, hq0, hk, _⟩
              exact ⟨q0, hq0, hk, Or.inr ⟨⟨_, rfl⟩, le_max_left _ _⟩⟩
            · exact hacc q' hq'
  · intro now l e he
    unfold IntentionRecognizer.updateIntentionLifespans at he
    rcases List.mem_filterMap.mp he with ⟨a, ha, hfa⟩
    simp only [] at hfa
    by_cases h10 : (now : ℤ) - (a.2.lastDetected : ℤ) > 10 * 60 * 1000
    · rw [if_pos h10] at hfa
      cases hfa
    · rw [if_neg h10] at hfa
      by_cases h5 : (now : ℤ) - (a.2.lastDetected : ℤ) > 5 * 60 * 1000
      · rw [if_pos h5] at hfa
        rcases Option.some_injective _ hfa with rfl
        exact ⟨a, ha, rfl, Or.inr ⟨rfl, le_max_left _ _⟩⟩
      · rw [if_neg h5] at hfa
        rcases Option.some_injective _ hfa with rfl
        exact ⟨a, ha, rfl, Or.inl rfl⟩

/-- Witness for C10: the intention conjunct applied to a 6-minute-old
intention with confidence `0.5`, whose membership in the updated list is
computed concretely. -/
theorem C10_witness :
    ∃ q ∈ [("a", (⟨"a", "task_request", 1/2, "active", 0, 300000, []⟩ : UserIntention))],
      ("a", (⟨"a", "task_request", max (1/10) ((1/2) * (8/10)), "active", 0, 300000,
          []⟩ : UserIntention)).1 = q.1 ∧
      (("a", (⟨"a", "task_request", max (1/10) ((1/2) * (8/10)), "active", 0, 300000,
          []⟩ : UserIntention)).2.confidence = q.2.confidence ∨
        (("a", (⟨"a", "task_request", max (1/10) ((1/2) * (8/10)), "active", 0, 300000,
            []⟩ : UserIntention)).2.confidence = max (1/10) (q.2.confidence * (8/10)) ∧
         ("a", (⟨"a", "task_request", max (1/10) ((1/2) * (8/10)), "active", 0, 300000,
            []⟩ : UserIntention)).2.confidence ≥ 1/10)) :=
  C10_decay_floored_at_tenth.2 660000
    [("a", (⟨"a", "task_request", 1/2, "active", 0, 300000, []⟩ : UserIntention))]
    ("a", (⟨"a", "task_request", max (1/10) ((1/2) * (8/10)), "active", 0, 300000,
        []⟩ : UserIntention))
    (by norm_num [IntentionRecognizer.updateIntentionLifespans, List.filterMap_cons,
        List.filterMap_nil])

/-! C3: entity spans and overlap resolution. -/

theorem pickWinner_eq_or (cur nxt : REntity) :
    EntityRecognizer.pickWinner cur nxt = cur ∨ EntityRecognizer.pickWinner cur nxt = nxt := by
  unfold EntityRecognizer.pickWinner
  split_ifs <;> simp

theorem resolveLoop_subset (cur : REntity) (rest : List REntity) :
    ∀ e ∈ EntityRecognizer.resolveLoop cur rest, e ∈ cur :: rest := by
  induction rest generalizing cur with
  | nil =>
    intro e he
    rw [EntityRecognizer.resolveLoop, List.mem_singleton] at he
    simp [he]
  | cons nxt t ih =>
    intro e he
    rw [EntityRecognizer.resolveLoop] at he
    split_ifs at he with hov
    · rcases List.mem_cons.mp (ih _ e he) with he1 | he1
      · rcases pickWinner_eq_or cur nxt with hw | hw <;> rw [hw] at he1 <;> simp [he1]
      · simp [he1]
    · rcases List.mem_cons.mp he with rfl | he1
      · exact List.mem_cons_self _ _
      · rcases List.mem_cons.mp (ih nxt e he1) with he2 | he2
        · simp [he2]
        · simp [he2]

theorem resolveLoop_pairwise (cur : REntity) (rest : List REntity)
    (hsort : (cur :: rest).Pairwise (fun a b : REntity => a.startIndex ≤ b.startIndex)) :
    (∀ x ∈ EntityRecognizer.resolveLoop cur rest, cur.startIndex ≤ x.startIndex) ∧
    (EntityRecognizer.resolveLoop cur rest).Pairwise
      (fun a b : REntity => a.endIndex ≤ b.startIndex) := by
  induction rest generalizing cur with
  | nil =>
    refine ⟨?_, by simp [EntityRecognizer.resolveLoop]⟩
    intro x hx
    rw [EntityRecognizer.resolveLoop, List.mem_singleton] at hx
    subst hx
    exact le_refl _
  | cons nxt t ih =>
    rcases List.pairwise_cons.mp hsort with ⟨hcur, hrest⟩
    rw [EntityRecognizer.resolveLoop]
    split_ifs with hov
    · have hw := pickWinner_eq_or cur nxt
      have hsort' : ((EntityRecognizer.pickWinner cur nxt) :: t).Pairwise
          (fun a b : REntity => a.startIndex ≤ b.startIndex) := by
        refine List.pairwise_cons.mpr ⟨?_, (List.pairwise_cons.mp hrest).2⟩
        intro x hx
        rcases hw with hw' | hw' <;> rw [hw']
        · exact hcur x (List.mem_cons.mpr (Or.inr hx))
        · exact (List.pairwise_cons.mp hrest).1 x hx
      obtain ⟨hlow, hpw⟩ := ih _ hsort'
      refine ⟨fun x hx => ?_, hpw⟩
      have hcw : cur.startIndex ≤ (EntityRecognizer.pickWinner cur nxt).startIndex := by
        rcases hw with hw' | hw'
        · rw [hw']
        · rw [hw']
          exact hcur nxt (List.mem_cons_self _ _)
      exact le_trans hcw (hlow x hx)
    · have hns : cur.startIndex ≤ nxt.startIndex := hcur nxt (List.mem_cons_self _ _)
      have hend : cur.endIndex ≤ nxt.startIndex := by
        simp only [EntityRecognizer.overlapsNext, Bool.and_eq_true, decide_eq_true_eq] at hov
        rcases Decidable.not_and_iff_or_not.mp hov with h | h
        · exact absurd hns h
        · omega
      obtain ⟨hlow, hpw⟩ := ih nxt hrest
      refine ⟨?_, ?_⟩
      · intro x hx
        rcases List.mem_cons.mp hx with rfl | hx'
        · exact le_refl _
        · exact le_trans hns (hlow x hx')
      · refine List.pairwise_cons.mpr ⟨?_, hpw⟩
        intro x hx
        exact le_trans hend (hlow x hx)

/-- **C3 (amended).**  For every candidate list whose spans satisfy
`0 ≤ startIndex < endIndex ≤ n`, every entity returned by the overlap
resolution satisfies the same bounds, and the returned spans are pairwise
non-overlapping.  (The "highest confidence is kept" part of the claim fails:
see the counterexample.) -/
theorem C3_resolved_entities_valid_and_nonoverlapping
    (now n : Nat) (l : List REntity)
    (hval : ∀ e ∈ l, e.startIndex < e.endIndex ∧ e.endIndex ≤ n) :
    (∀ e ∈ EntityRecognizer.resolveOverlappingEntities now l,
       e.startIndex < e.endIndex ∧ e.endIndex ≤ n) ∧
    (EntityRecognizer.resolveOverlappingEntities now l).Pairwise
      (fun a b : REntity => a.endIndex ≤ b.startIndex ∨ b.endIndex ≤ a.startIndex) := by
  unfold EntityRecognizer.resolveOverlappingEntities
  split_ifs with hlen
  · refine ⟨hval, ?_⟩
    match l, hlen with
    | [], _ => simp
    | [a], _ => simp
  · cases hsorted : l.insertionSort (fun a b : REntity => a.startIndex ≤ b.startIndex) with
    | nil => exact ⟨by simp, by simp⟩
    | cons cur rest =>
      have hperm := List.perm_insertionSort (fun a b : REntity => a.startIndex ≤ b.startIndex) l
      have hsort : (cur :: rest).Pairwise (fun a b : REntity => a.startIndex ≤ b.startIndex) := by
        have hs := List.sorted_insertionSort (fun a b : REntity => a.startIndex ≤ b.startIndex) l
        rw [hsorted] at hs
        exact hs
      have hsub := resolveLoop_subset cur rest
      have hmem_l : ∀ x ∈ cur :: rest, x ∈ l := by
        intro x hx
        rw [← hsorted] at hx
        exact hperm.subset hx
      obtain ⟨hlow, hpw⟩ := resolveLoop_pairwise cur rest hsort
      constructor
      · intro e he
        rcases List.mem_map.mp he with ⟨x, hx, rfl⟩
        exact hval x (hmem_l x (hsub x hx))
      · rw [List.pairwise_map]
        exact hpw.imp fun h => Or.inl h

/-- **C3 (counterexample).**  Candidates `A = [0,10)@0.8`, `B = [1,2)@0.9`,
`C = [3,4)@0.6`: the resolution keeps `B` and `C` and drops `A`, although the
dropped `A` overlaps the kept `C` and has strictly higher confidence — the
greedy scan compares only against the current survivor, so "the
highest-confidence match per overlapping span is kept" fails. -/
theorem C3_highest_confidence_not_always_kept :
    ((EntityRecognizer.resolveOverlappingEntities 0
        [⟨"location", "A", none, 0, 10, 8/10, [], none, none, none⟩,
         ⟨"organization", "B", none, 1, 2, 9/10, [], none, none, none⟩,
         ⟨"concept", "C", none, 3, 4, 6/10, [], none, none, none⟩]).map
        (fun e => (e.startIndex, e.endIndex, e.confidence)))
      = [(1, 2, 9/10), (3, 4, 6/10)] ∧
    ((0 : Nat) ≤ 3 ∧ (3 : Nat) < 10) ∧ (6/10 : ℚ) < 8/10 := by
  refine ⟨?_, by norm_num, by norm_num⟩
  norm_num [EntityRecognizer.resolveOverlappingEntities, List.insertionSort,
    List.orderedInsert, EntityRecognizer.resolveLoop, EntityRecognizer.overlapsNext,
    EntityRecognizer.pickWinner, EntityRecognizer.addMentionMetadata]

/-- Witness for C3: the span/non-overlap theorem applied to two concrete
overlapping candidates inside a text of length 5. -/
theorem C3_witness :
    (∀ e ∈ EntityRecognizer.resolveOverlappingEntities 7
        [⟨"location", "A", none, 0, 3, 8/10, [], none, none, none⟩,
         ⟨"topic", "B", none, 2, 5, 9/10, [], none, none, none⟩],
      e.startIndex < e.endIndex ∧ e.endIndex ≤ 5) ∧
    (EntityRecognizer.resolveOverlappingEntities 7
        [⟨"location", "A", none, 0, 3, 8/10, [], none, none, none⟩,
         ⟨"topic", "B", none, 2, 5, 9/10, [], none, none, none⟩]).Pairwise
      (fun a b : REntity => a.endIndex ≤ b.startIndex ∨ b.endIndex ≤ a.startIndex) :=
  C3_resolved_entities_valid_and_nonoverlapping 7 5
    [⟨"location", "A", none, 0, 3, 8/10, [], none, none, none⟩,
     ⟨"topic", "B", none, 2, 5, 9/10, [], none, none, none⟩]
    (by norm_num)

/-! C5: sequential pattern accumulation. -/

theorem filter_map_invariant {f : IPattern → IPattern} {q : IPattern → Bool}
    (hf : ∀ p, f p = p ∨ (q p = false ∧ q (f p) = false)) (ps : List IPattern) :
    (ps.map f).filter q = ps.filter q := by
  induction ps with
  | nil => rfl
  | cons p t ih =>
    rw [List.map_cons, List.filter_cons, List.filter_cons]
    rcases hf p with hp | ⟨hq, hqf⟩
    · rw [hp, ih]
    · rw [hq, hqf, ih]
      simp

theorem signatures_map_invariant {f : IPattern → IPattern}
    (hf : ∀ p, (f p).ptype = p.ptype ∧
      InteractionPatternTracker.seqKeyOf (f p) = InteractionPatternTracker.seqKeyOf p)
    (ps : List IPattern) : seqSignatures (ps.map f) = seqSignatures ps := by
  induction ps with
  | nil => rfl
  | cons p t ih =>
    unfold seqSignatures at ih ⊢
    rw [List.map_cons, List.filter_cons, List.filter_cons]
    have hq : isSeqPattern (f p) = isSeqPattern p := by
      unfold isSeqPattern
      rw [(hf p).1]
    rw [hq]
    cases hsp : isSeqPattern p
    · simpa using ih
    · simp only [reduceIte, List.map_cons]
      rw [(hf p).2, ih]

theorem seqKeyOf_update (p : IPattern) (occ lo : Nat) (cf : ℚ) :
    InteractionPatternTracker.seqKeyOf
      { p with occurrences := occ, lastObservedAt := lo, confidence := cf }
      = InteractionPatternTracker.seqKeyOf p := rfl

theorem applySeqEntry_of_absent (now : Nat) (ps : List IPattern) (k : String) (c : Nat)
    (habs : ∀ p ∈ ps,
      ¬(p.ptype = .sequential ∧ InteractionPatternTracker.seqKeyOf p = some k)) :
    seqKeyCount (InteractionPatternTracker.applySeqEntry now ps k c) k = 1 ∧
    ∀ p ∈ InteractionPatternTracker.applySeqEntry now ps k c,
      p.ptype = .sequential → InteractionPatternTracker.seqKeyOf p = some k →
      p.occurrences = c ∧ p.confidence = min (1/2 + (c : ℚ) * (1/10)) (9/10) := by
  have hany : (ps.any fun p =>
      p.ptype == .sequential && InteractionPatternTracker.seqKeyOf p == some k) = false := by
    rw [List.any_eq_false]
    intro p hp
    have := habs p hp
    simp only [Bool.and_eq_true, beq_iff_eq]
    tauto
  unfold InteractionPatternTracker.applySeqEntry
  rw [hany]
  simp only [Bool.not_false, if_true, reduceIte]
  constructor
  · unfold seqKeyCount
    rw [List.countP_append]
    have h0 : ps.countP (fun p =>
        p.ptype == .sequential && InteractionPatternTracker.seqKeyOf p == some k) = 0 := by
      rw [List.countP_eq_zero]
      intro p hp
      have := habs p hp
      simp only [Bool.and_eq_true, beq_iff_eq]
      tauto
    rw [h0]
    simp [InteractionPatternTracker.seqKeyOf]
  · intro p hp hseq hkey
    rcases List.mem_append.mp hp with hp' | hp'
    · exact absurd ⟨hseq, hkey⟩ (habs p hp')
    · rw [List.mem_singleton] at hp'
      subst hp'
      exact ⟨rfl, rfl⟩

theorem applySeqEntry_of_present (now : Nat) (ps : List IPattern) (k : String) (c m : Nat)
    (hocc : ∀ p ∈ ps, p.ptype = .sequential →
      InteractionPatternTracker.seqKeyOf p = some k → p.occurrences = m)
    (hex : ∃ p ∈ ps, p.ptype = .sequential ∧ InteractionPatternTracker.seqKeyOf p = some k) :
    seqKeyCount (InteractionPatternTracker.applySeqEntry now ps k c) k = seqKeyCount ps k ∧
    (∀ p ∈ InteractionPatternTracker.applySeqEntry now ps k c,
      p.ptype = .sequential → InteractionPatternTracker.seqKeyOf p = some k →
      p.occurrences = m + 1 ∧
      p.confidence = min (1/2 + ((m : ℚ) + 1) * (1/10)) (9/10)) ∧
    (InteractionPatternTracker.applySeqEntry now ps k c).filter
        (fun p => !(p.ptype == .sequential && InteractionPatternTracker.seqKeyOf p == some k))
      = ps.filter
        (fun p => !(p.ptype == .sequential &&
          InteractionPatternTracker.seqKeyOf p == some k)) := by
  have hany : (ps.any fun p =>
      p.ptype == .sequential && InteractionPatternTracker.seqKeyOf p == some k) = true := by
    rw [List.any_eq_true]
    rcases hex with ⟨p, hp, hseq, hkey⟩
    exact ⟨p, hp, by simp [hseq, hkey]⟩
  unfold InteractionPatternTracker.applySeqEntry
  rw [hany]
  simp only [Bool.not_true, Bool.false_eq_true, if_false, reduceIte]
  refine ⟨?_, ?_, ?_⟩
  · unfold seqKeyCount
    rw [List.countP_map]
    refine List.countP_congr ?_
    intro p _
    simp only [Function.comp_apply]
    by_cases hc : (p.ptype == PatternType.sequential &&
        InteractionPatternTracker.seqKeyOf p == some k) = true
    · rw [if_pos hc, seqKeyOf_update]
    · rw [if_neg hc]
  · intro p hp hseq hkey
    rcases List.mem_map.mp hp with ⟨q, hq, hfq⟩
    by_cases hc : (q.ptype == .sequential &&
        InteractionPatternTracker.seqKeyOf q == some k) = true
    · rw [if_pos hc] at hfq
      subst hfq
      rcases Bool.and_eq_true_iff.mp hc with ⟨h1, h2⟩
      have hm := hocc q hq (by simpa using h1) (by simpa using h2)
      refine ⟨by simp [hm], ?_⟩
      simp only [hm]
    · rw [if_neg hc] at hfq
      subst hfq
      exact absurd (by simp [hseq, hkey]) hc
  · refine filter_map_invariant ?_ ps
    intro p
    by_cases hc : (p.ptype == .sequential &&
        InteractionPatternTracker.seqKeyOf p == some k) = true
    · right
      constructor
      · simp [hc]
      · rw [if_pos hc]
        simpa using hc
    · left
      rw [if_neg hc]

theorem seqSignatures_append (xs ys : List IPattern) :
    seqSignatures (xs ++ ys) = seqSignatures xs ++ seqSignatures ys := by
  unfold seqSignatures
  rw [List.filter_append, List.map_append]

theorem not_mem_seqSignatures (ps : List IPattern) (k : String)
    (habs : ∀ p ∈ ps,
      ¬(p.ptype = .sequential ∧ InteractionPatternTracker.seqKeyOf p = some k)) :
    some k ∉ seqSignatures ps := by
  intro hmem
  unfold seqSignatures at hmem
  rcases List.mem_map.mp hmem with ⟨p, hp, hkey⟩
  rcases List.mem_filter.mp hp with ⟨hps, hsp⟩
  unfold isSeqPattern at hsp
  exact habs p hps ⟨by simpa using hsp, hkey⟩

theorem applySeqEntry_SeqUnique (now : Nat) (ps : List IPattern) (k : String) (c : Nat)
    (h : SeqUnique ps) :
    SeqUnique (InteractionPatternTracker.applySeqEntry now ps k c) := by
  unfold InteractionPatternTracker.applySeqEntry
  cases hb : (ps.any fun p =>
      p.ptype == .sequential && InteractionPatternTracker.seqKeyOf p == some k) with
  | false =>
    simp only [Bool.not_false, if_true, reduceIte]
    unfold SeqUnique at h ⊢
    rw [seqSignatures_append]
    have habs : ∀ p ∈ ps,
        ¬(p.ptype = .sequential ∧ InteractionPatternTracker.seqKeyOf p = some k) := by
      intro p hp hcontra
      have := List.any_eq_false.mp hb p hp
      simp only [Bool.and_eq_true, beq_iff_eq] at this
      exact this ⟨hcontra.1, hcontra.2⟩
    have hsig : seqSignatures
        [{ ptype := .sequential,
           description := "User often follows " ++
             InteractionPatternTracker.formatIntention ((k.splitOn "→").headD "") ++
             " with " ++ InteractionPatternTracker.formatIntention ((k.splitOn "→").getLastD ""),
           confidence := min (1/2 + (c : ℚ) * (1/10)) (9/10),
           occurrences := c,
           firstObservedAt := now, lastObservedAt := now,
           elements := .strs (k.splitOn "→"),
           metadata := .seq k (k.splitOn "→") }] = [some k] := rfl
    rw [hsig, List.nodup_append]
    refine ⟨h, List.nodup_singleton _, ?_⟩
    intro s hs hs'
    rw [List.mem_singleton] at hs'
    subst hs'
    exact not_mem_seqSignatures ps k habs hs
  | true =>
    simp only [Bool.not_true, Bool.false_eq_true, if_false, reduceIte]
    unfold SeqUnique at h ⊢
    have hf : ∀ p : IPattern,
        ((if (p.ptype == PatternType.sequential &&
            InteractionPatternTracker.seqKeyOf p == some k) = true then
          { p with occurrences := p.occurrences + 1, lastObservedAt := now,
                   confidence := min (1/2 + ((p.occurrences : ℚ) + 1) * (1/10)) (9/10) }
        else p) : IPattern).ptype = p.ptype ∧
        InteractionPatternTracker.seqKeyOf
          (if (p.ptype == PatternType.sequential &&
              InteractionPatternTracker.seqKeyOf p == some k) = true then
            { p with occurrences := p.occurrences + 1, lastObservedAt := now,
                     confidence := min (1/2 + ((p.occurrences : ℚ) + 1) * (1/10)) (9/10) }
          else p) = InteractionPatternTracker.seqKeyOf p := by
      intro p
      by_cases hc : (p.ptype == PatternType.sequential &&
          InteractionPatternTracker.seqKeyOf p == some k) = true
      · rw [if_pos hc]
        exact ⟨rfl, seqKeyOf_update p _ _ _⟩
      · rw [if_neg hc]
        exact ⟨rfl, rfl⟩
    rw [signatures_map_invariant hf ps]
    exact h

theorem applySeqEntry_SeqConfOK (now : Nat) (ps : List IPattern) (k : String) (c : Nat)
    (h : SeqConfOK ps) :
    SeqConfOK (InteractionPatternTracker.applySeqEntry now ps k c) := by
  unfold InteractionPatternTracker.applySeqEntry
  cases hb : (ps.any fun p =>
      p.ptype == .sequential && InteractionPatternTracker.seqKeyOf p == some k) with
  | false =>
    simp only [Bool.not_false, if_true, reduceIte]
    intro p hp hseq
    rcases List.mem_append.mp hp with hp' | hp'
    · exact h p hp' hseq
    · rw [List.mem_singleton] at hp'
      subst hp'
      rfl
  | true =>
    simp only [Bool.not_true, Bool.false_eq_true, if_false, reduceIte]
    intro p hp hseq
    rcases List.mem_map.mp hp with ⟨q, hq, hfq⟩
    by_cases hc : (q.ptype == PatternType.sequential &&
        InteractionPatternTracker.seqKeyOf q == some k) = true
    · rw [if_pos hc] at hfq
      subst hfq
      show min (1/2 + ((q.occurrences : ℚ) + 1) * (1/10)) (9/10)
        = min (1/2 + (((q.occurrences + 1 : ℕ) : ℚ)) * (1/10)) (9/10)
      push_cast
      ring_nf
    · rw [if_neg hc] at hfq
      subst hfq
      exact h q hq hseq

theorem seqKeyOf_hour_update (p : IPattern) (occ lo : Nat) (cf : ℚ) :
    InteractionPatternTracker.seqKeyOf
        { p with occurrences := occ, lastObservedAt := lo, confidence := cf }
      = InteractionPatternTracker.seqKeyOf p ∧
    ({ p with occurrences := occ, lastObservedAt := lo, confidence := cf } : IPattern).ptype
      = p.ptype := ⟨rfl, rfl⟩

theorem applyHourEntry_seqSignatures (getHours : Nat → Nat) (now : Nat)
    (userMessages : List IEvent) (ps : List IPattern) (hourNum count : Nat) :
    seqSignatures
        (InteractionPatternTracker.applyHourEntry getHours now userMessages ps hourNum count)
      = seqSignatures ps := by
  unfold InteractionPatternTracker.applyHourEntry
  simp only []
  cases hb : (ps.any fun p =>
      p.ptype == .temporal && InteractionPatternTracker.timeRangeOf p ==
        some (toString hourNum ++ ":00-" ++ toString hourNum ++ ":59")) with
  | false =>
    simp only [Bool.not_false, if_true, reduceIte]
    rw [seqSignatures_append]
    have : seqSignatures
        [{ ptype := .temporal,
           description := "User is often active around " ++
             toString (if hourNum % 12 = 0 then 12 else hourNum % 12) ++ " " ++
             (if hourNum < 12 then "AM" else "PM"),
           confidence := min (1/2 + (count : ℚ) * (1/10)) (9/10),
           occurrences := count,
           firstObservedAt := now, lastObservedAt := now,
           elements := .events (userMessages.filter fun e => getHours e.timestamp == hourNum),
           metadata := .hourOfDay (toString hourNum ++ ":00-" ++ toString hourNum ++ ":59")
             hourNum }] = [] := rfl
    rw [this, List.append_nil]
  | true =>
    simp only [Bool.not_true, Bool.false_eq_true, if_false, reduceIte]
    have hf : ∀ p : IPattern,
        ((if (p.ptype == PatternType.temporal && InteractionPatternTracker.timeRangeOf p ==
            some (toString hourNum ++ ":00-" ++ toString hourNum ++ ":59")) = true then
          { p with occurrences := p.occurrences + 1, lastObservedAt := now,
                   confidence := min (1/2 + ((p.occurrences : ℚ) + 1) * (1/10)) (9/10) }
        else p) : IPattern).ptype = p.ptype ∧
        InteractionPatternTracker.seqKeyOf
          (if (p.ptype == PatternType.temporal && InteractionPatternTracker.timeRangeOf p ==
              some (toString hourNum ++ ":00-" ++ toString hourNum ++ ":59")) = true then
            { p with occurrences := p.occurrences + 1, lastObservedAt := now,
                     confidence := min (1/2 + ((p.occurrences : ℚ) + 1) * (1/10)) (9/10) }
          else p) = InteractionPatternTracker.seqKeyOf p := by
      intro p
      by_cases hc : (p.ptype == PatternType.temporal &&
          InteractionPatternTracker.timeRangeOf p ==
            some (toString hourNum ++ ":00-" ++ toString hourNum ++ ":59")) = true
      · rw [if_pos hc]
        exact ⟨rfl, seqKeyOf_update p _ _ _⟩
      · rw [if_neg hc]
        exact ⟨rfl, rfl⟩
    rw [signatures_map_invariant hf ps]

theorem applyHourEntry_SeqConfOK (getHours : Nat → Nat) (now : Nat)
    (userMessages : List IEvent) (ps : List IPattern) (hourNum count : Nat)
    (h : SeqConfOK ps) :
    SeqConfOK
      (InteractionPatternTracker.applyHourEntry getHours now userMessages ps hourNum count) := by
  unfold InteractionPatternTracker.applyHourEntry
  simp only []
  cases hb : (ps.any fun p =>
      p.ptype == .temporal && InteractionPatternTracker.timeRangeOf p ==
        some (toString hourNum ++ ":00-" ++ toString hourNum ++ ":59")) with
  | false =>
    simp only [Bool.not_false, if_true, reduceIte]
    intro p hp hseq
    rcases List.mem_append.mp hp with hp' | hp'
    · exact h p hp' hseq
    · rw [List.mem_singleton] at hp'
      subst hp'
      exact absurd hseq (by simp)
  | true =>
    simp only [Bool.not_true, Bool.false_eq_true, if_false, reduceIte]
    intro p hp hseq
    rcases List.mem_map.mp hp with ⟨q, hq, hfq⟩
    by_cases hc : (q.ptype == PatternType.temporal &&
        InteractionPatternTracker.timeRangeOf q ==
          some (toString hourNum ++ ":00-" ++ toString hourNum ++ ":59")) = true
    · rw [if_pos hc] at hfq
      subst hfq
      have h1 : q.ptype = PatternType.temporal := by
        simpa using (Bool.and_eq_true_iff.mp hc).1
      have h2 : q.ptype = PatternType.sequential := hseq
      rw [h1] at h2
      exact absurd h2 (by simp)
    · rw [if_neg hc] at hfq
      subst hfq
      exact h q hq hseq

theorem seqKeyOf_none_of_freqIntentionKey (p : IPattern) (i : String)
    (h : InteractionPatternTracker.freqIntentionKeyOf p = some i) :
    InteractionPatternTracker.seqKeyOf p = none := by
  unfold InteractionPatternTracker.freqIntentionKeyOf at h
  unfold InteractionPatternTracker.seqKeyOf
  cases hm : p.metadata <;> rw [hm] at h <;> simp_all

theorem seqKeyOf_none_of_freqEntityKey (p : IPattern) (i : String)
    (h : InteractionPatternTracker.freqEntityKeyOf p = some i) :
    InteractionPatternTracker.seqKeyOf p = none := by
  unfold InteractionPatternTracker.freqEntityKeyOf at h
  unfold InteractionPatternTracker.seqKeyOf
  cases hm : p.metadata <;> rw [hm] at h <;> simp_all

theorem applyFreqIntentionEntry_seqSignatures (now : Nat) (userMessages : List IEvent)
    (ps : List IPattern) (intention : String) (count : Nat) :
    seqSignatures
        (InteractionPatternTracker.applyFreqIntentionEntry now userMessages ps intention count)
      = seqSignatures ps := by
  unfold InteractionPatternTracker.applyFreqIntentionEntry
  simp only []
  cases hb : (ps.any fun p =>
      p.ptype == .frequency &&
        InteractionPatternTracker.freqIntentionKeyOf p == some intention) with
  | false =>
    simp only [Bool.not_false, if_true, reduceIte]
    rw [seqSignatures_append]
    simp [seqSignatures, isSeqPattern]
  | true =>
    simp only [Bool.not_true, Bool.false_eq_true, if_false, reduceIte]
    have hf : ∀ p : IPattern,
        ((if (p.ptype == PatternType.frequency &&
            InteractionPatternTracker.freqIntentionKeyOf p == some intention) = true then
          { p with occurrences := count, lastObservedAt := now,
                   confidence := min (1/2 + (count : ℚ) * (1/10)) (9/10),
                   metadata := .freqIntention intention
                     ((count : ℚ) / (userMessages.length : ℚ)) }
        else p) : IPattern).ptype = p.ptype ∧
        InteractionPatternTracker.seqKeyOf
          (if (p.ptype == PatternType.frequency &&
              InteractionPatternTracker.freqIntentionKeyOf p == some intention) = true then
            { p with occurrences := count, lastObservedAt := now,
                     confidence := min (1/2 + (count : ℚ) * (1/10)) (9/10),
                     metadata := .freqIntention intention
                       ((count : ℚ) / (userMessages.length : ℚ)) }
          else p) = InteractionPatternTracker.seqKeyOf p := by
      intro p
      by_cases hc : (p.ptype == PatternType.frequency &&
          InteractionPatternTracker.freqIntentionKeyOf p == some intention) = true
      · rw [if_pos hc]
        refine ⟨rfl, ?_⟩
        have hk : InteractionPatternTracker.freqIntentionKeyOf p = some intention := by
          simpa using (Bool.and_eq_true_iff.mp hc).2
        rw [seqKeyOf_none_of_freqIntentionKey p intention hk]
        rfl
      · rw [if_neg hc]
        exact ⟨rfl, rfl⟩
    rw [signatures_map_invariant hf ps]

theorem applyFreqIntentionEntry_SeqConfOK (now : Nat) (userMessages : List IEvent)
    (ps : List IPattern) (intention : String) (count : Nat) (h : SeqConfOK ps) :
    SeqConfOK
      (InteractionPatternTracker.applyFreqIntentionEntry now userMessages ps intention count) := by
  unfold InteractionPatternTracker.applyFreqIntentionEntry
  simp only []
  cases hb : (ps.any fun p =>
      p.ptype == .frequency &&
        InteractionPatternTracker.freqIntentionKeyOf p == some intention) with
  | false =>
    simp only [Bool.not_false, if_true, reduceIte]
    intro p hp hseq
    rcases List.mem_append.mp hp with hp' | hp'
    · exact h p hp' hseq
    · rw [List.mem_singleton] at hp'
      subst hp'
      exact absurd hseq (by simp)
  | true =>
    simp only [Bool.not_true, Bool.false_eq_true, if_false, reduceIte]
    intro p hp hseq
    rcases List.mem_map.mp hp with ⟨q, hq, hfq⟩
    by_cases hc : (q.ptype == PatternType.frequency &&
        InteractionPatternTracker.freqIntentionKeyOf q == some intention) = true
    · rw [if_pos hc] at hfq
      subst hfq
      rfl
    · rw [if_neg hc] at hfq
      subst hfq
      exact h q hq hseq

theorem applyFreqEntityEntry_seqSignatures (now : Nat) (userMessages : List IEvent)
    (ps : List IPattern) (entityKey : String) (count : Nat) :
    seqSignatures
        (InteractionPatternTracker.applyFreqEntityEntry now userMessages ps entityKey count)
      = seqSignatures ps := by
  unfold InteractionPatternTracker.applyFreqEntityEntry
  simp only []
  cases hb : (ps.any fun p =>
      p.ptype == .frequency &&
        InteractionPatternTracker.freqEntityKeyOf p == some entityKey) with
  | false =>
    simp only [Bool.not_false, if_true, reduceIte]
    rw [seqSignatures_append]
    simp [seqSignatures, isSeqPattern]
  | true =>
    simp only [Bool.not_true, Bool.false_eq_true, if_false, reduceIte]
    have hf : ∀ p : IPattern,
        ((if (p.ptype == PatternType.frequency &&
            InteractionPatternTracker.freqEntityKeyOf p == some entityKey) = true then
          { p with occurrences := count, lastObservedAt := now,
                   confidence := min (1/2 + (count : ℚ) * (1/10)) (9/10) }
        else p) : IPattern).ptype = p.ptype ∧
        InteractionPatternTracker.seqKeyOf
          (if (p.ptype == PatternType.frequency &&
              InteractionPatternTracker.freqEntityKeyOf p == some entityKey) = true then
            { p with occurrences := count, lastObservedAt := now,
                     confidence := min (1/2 + (count : ℚ) * (1/10)) (9/10) }
          else p) = InteractionPatternTracker.seqKeyOf p := by
      intro p
      by_cases hc : (p.ptype == PatternType.frequency &&
          InteractionPatternTracker.freqEntityKeyOf p == some entityKey) = true
      · rw [if_pos hc]
        exact ⟨rfl, seqKeyOf_update p _ _ _⟩
      · rw [if_neg hc]
        exact ⟨rfl, rfl⟩
    rw [signatures_map_invariant hf ps]

theorem applyFreqEntityEntry_SeqConfOK (now : Nat) (userMessages : List IEvent)
    (ps : List IPattern) (entityKey : String) (count : Nat) (h : SeqConfOK ps) :
    SeqConfOK
      (InteractionPatternTracker.applyFreqEntityEntry now userMessages ps entityKey count) := by
  unfold InteractionPatternTracker.applyFreqEntityEntry
  simp only []
  cases hb : (ps.any fun p =>
      p.ptype == .frequency &&
        InteractionPatternTracker.freqEntityKeyOf p == some entityKey) with
  | false =>
    simp only [Bool.not_false, if_true, reduceIte]
    intro p hp hseq
    rcases List.mem_append.mp hp with hp' | hp'
    · exact h p hp' hseq
    · rw [List.mem_singleton] at hp'
      subst hp'
      exact absurd hseq (by simp)
  | true =>
    simp only [Bool.not_true, Bool.false_eq_true, if_false, reduceIte]
    intro p hp hseq
    rcases List.mem_map.mp hp with ⟨q, hq, hfq⟩
    by_cases hc : (q.ptype == PatternType.frequency &&
        InteractionPatternTracker.freqEntityKeyOf q == some entityKey) = true
    · rw [if_pos hc] at hfq
      subst hfq
      rfl
    · rw [if_neg hc] at hfq
      subst hfq
      exact h q hq hseq

theorem foldl_preserves_inv {α : Type} (P : List IPattern → Prop)
    (g : List IPattern → α → List IPattern)
    (hg : ∀ ps a, P ps → P (g ps a)) :
    ∀ (l : List α) (ps : List IPattern), P ps → P (l.foldl g ps) := by
  intro l
  induction l with
  | nil => exact fun ps h => h
  | cons a t ih => exact fun ps h => ih (g ps a) (hg ps a h)

theorem detectSequentialPatterns_inv (now : Nat) (st : InteractionPatternTracker)
    (h : SeqUnique st.patterns ∧ SeqConfOK st.patterns) :
    SeqUnique (InteractionPatternTracker.detectSequentialPatterns now st).patterns ∧
    SeqConfOK (InteractionPatternTracker.detectSequentialPatterns now st).patterns := by
  unfold InteractionPatternTracker.detectSequentialPatterns
  by_cases h3 : st.interactionHistory.length < 3
  · rw [if_pos h3]
    exact h
  · rw [if_neg h3]
    simp only []
    by_cases hm : (InteractionPatternTracker.userMessageEvents st).length < 3
    · rw [if_pos hm]
      exact h
    · rw [if_neg hm]
      exact foldl_preserves_inv (fun ps => SeqUnique ps ∧ SeqConfOK ps)
        (fun patterns (entry : String × Nat) =>
          if entry.2 ≥ 2 then
            InteractionPatternTracker.applySeqEntry now patterns entry.1 entry.2
          else patterns)
        (fun ps entry hp => by
          simp only []
          by_cases h2 : entry.2 ≥ 2
          · rw [if_pos h2]
            exact ⟨applySeqEntry_SeqUnique now ps entry.1 entry.2 hp.1,
                   applySeqEntry_SeqConfOK now ps entry.1 entry.2 hp.2⟩
          · rw [if_neg h2]
            exact hp)
        _ st.patterns h

theorem detectTemporalPatterns_inv (getHours : Nat → Nat) (now : Nat)
    (st : InteractionPatternTracker)
    (h : SeqUnique st.patterns ∧ SeqConfOK st.patterns) :
    SeqUnique (InteractionPatternTracker.detectTemporalPatterns getHours now st).patterns ∧
    SeqConfOK (InteractionPatternTracker.detectTemporalPatterns getHours now st).patterns := by
  unfold InteractionPatternTracker.detectTemporalPatterns
  by_cases h5 : st.interactionHistory.length < 5
  · rw [if_pos h5]
    exact h
  · rw [if_neg h5]
    simp only []
    by_cases hm : (InteractionPatternTracker.userMessageEvents st).length < 5
    · rw [if_pos hm]
      exact h
    · rw [if_neg hm]
      exact foldl_preserves_inv (fun ps => SeqUnique ps ∧ SeqConfOK ps)
        (fun patterns (entry : Nat × Nat) =>
          if entry.2 ≥ 3 then
            InteractionPatternTracker.applyHourEntry getHours now
              (InteractionPatternTracker.userMessageEvents st) patterns entry.1 entry.2
          else patterns)
        (fun ps entry hp => by
          simp only []
          by_cases h2 : entry.2 ≥ 3
          · rw [if_pos h2]
            refine ⟨?_, applyHourEntry_SeqConfOK getHours now _ ps entry.1 entry.2 hp.2⟩
            unfold SeqUnique
            rw [applyHourEntry_seqSignatures]
            exact hp.1
          · rw [if_neg h2]
            exact hp)
        _ st.patterns h

theorem detectFrequencyPatterns_inv (now : Nat) (st : InteractionPatternTracker)
    (h : SeqUnique st.patterns ∧ SeqConfOK st.patterns) :
    SeqUnique (InteractionPatternTracker.detectFrequencyPatterns now st).patterns ∧
    SeqConfOK (InteractionPatternTracker.detectFrequencyPatterns now st).patterns := by
  unfold InteractionPatternTracker.detectFrequencyPatterns
  simp only []
  by_cases hm : (InteractionPatternTracker.userMessageEvents st).length < 3
  · rw [if_pos hm]
    exact h
  · rw [if_neg hm]
    refine foldl_preserves_inv (fun ps => SeqUnique ps ∧ SeqConfOK ps)
      (fun patterns (entry : String × Nat) =>
        if entry.2 ≥ 2 then
          InteractionPatternTracker.applyFreqEntityEntry now
            (InteractionPatternTracker.userMessageEvents st) patterns entry.1 entry.2
        else patterns)
      (fun ps entry hp => by
        simp only []
        by_cases h2 : entry.2 ≥ 2
        · rw [if_pos h2]
          refine ⟨?_, applyFreqEntityEntry_SeqConfOK now _ ps entry.1 entry.2 hp.2⟩
          unfold SeqUnique
          rw [applyFreqEntityEntry_seqSignatures]
          exact hp.1
        · rw [if_neg h2]
          exact hp)
      _ _
      (foldl_preserves_inv (fun ps => SeqUnique ps ∧ SeqConfOK ps)
        (fun patterns (entry : String × Nat) =>
          if entry.2 ≥ 3 ∧ (entry.2 : ℚ) /
              ((InteractionPatternTracker.userMessageEvents st).length : ℚ) ≥ 1/4 then
            InteractionPatternTracker.applyFreqIntentionEntry now
              (InteractionPatternTracker.userMessageEvents st) patterns entry.1 entry.2
          else patterns)
        (fun ps entry hp => by
          simp only []
          by_cases h2 : entry.2 ≥ 3 ∧ (entry.2 : ℚ) /
              ((InteractionPatternTracker.userMessageEvents st).length : ℚ) ≥ 1/4
          · rw [if_pos h2]
            refine ⟨?_, applyFreqIntentionEntry_SeqConfOK now _ ps entry.1 entry.2 hp.2⟩
            unfold SeqUnique
            rw [applyFreqIntentionEntry_seqSignatures]
            exact hp.1
          · rw [if_neg h2]
            exact hp)
        _ st.patterns h)

theorem trackMessage_SeqInv (getHours : Nat → Nat) (now : Nat) (message : WMessage)
    (st : InteractionPatternTracker)
    (h : SeqUnique st.patterns ∧ SeqConfOK st.patterns) :
    SeqUnique (InteractionPatternTracker.trackMessage getHours now message st).patterns ∧
    SeqConfOK (InteractionPatternTracker.trackMessage getHours now message st).patterns := by
  unfold InteractionPatternTracker.trackMessage InteractionPatternTracker.analyzePatterns
  exact detectFrequencyPatterns_inv now _
    (detectTemporalPatterns_inv getHours now _
      (detectSequentialPatterns_inv now _ h))

/-- **C5.** Sequential-pattern accumulation: when a 2-step (or 3-step) intention
sequence signature is applied to the pattern store, either no sequential record with
that signature exists and exactly one new record is created, carrying
`occurrences = count` and `confidence = min(0.5 + 0.1*count, 0.9)`, or records with
that signature exist (all at occurrence count `m`) and the store keeps the same number
of records with that signature, each updated to `occurrences = m + 1` and
`confidence = min(0.5 + 0.1*(m+1), 0.9)` while every other record is untouched; and a
full `trackMessage` pass preserves both the no-two-sequential-records-share-a-signature
invariant and the confidence formula of every sequential record. -/
theorem C5_sequential_pattern_accumulation :
    (∀ (now : Nat) (ps : List IPattern) (k : String) (c : Nat),
      (∀ p ∈ ps,
        ¬(p.ptype = .sequential ∧ InteractionPatternTracker.seqKeyOf p = some k)) →
      seqKeyCount (InteractionPatternTracker.applySeqEntry now ps k c) k = 1 ∧
      ∀ p ∈ InteractionPatternTracker.applySeqEntry now ps k c,
        p.ptype = .sequential → InteractionPatternTracker.seqKeyOf p = some k →
        p.occurrences = c ∧ p.confidence = min (1/2 + (c : ℚ) * (1/10)) (9/10)) ∧
    (∀ (now : Nat) (ps : List IPattern) (k : String) (c m : Nat),
      (∀ p ∈ ps, p.ptype = .sequential → InteractionPatternTracker.seqKeyOf p = some k →
        p.occurrences = m) →
      (∃ p ∈ ps, p.ptype = .sequential ∧ InteractionPatternTracker.seqKeyOf p = some k) →
      seqKeyCount (InteractionPatternTracker.applySeqEntry now ps k c) k
          = seqKeyCount ps k ∧
      (∀ p ∈ InteractionPatternTracker.applySeqEntry now ps k c,
        p.ptype = .sequential → InteractionPatternTracker.seqKeyOf p = some k →
        p.occurrences = m + 1 ∧
        p.confidence = min (1/2 + ((m : ℚ) + 1) * (1/10)) (9/10)) ∧
      (InteractionPatternTracker.applySeqEntry now ps k c).filter
          (fun p => !(p.ptype == .sequential &&
            InteractionPatternTracker.seqKeyOf p == some k))
        = ps.filter (fun p => !(p.ptype == .sequential &&
            InteractionPatternTracker.seqKeyOf p == some k))) ∧
    (∀ (getHours : Nat → Nat) (now : Nat) (message : WMessage)
        (st : InteractionPatternTracker),
      SeqUnique st.patterns → SeqConfOK st.patterns →
      SeqUnique (InteractionPatternTracker.trackMessage getHours now message st).patterns ∧
      SeqConfOK (InteractionPatternTracker.trackMessage getHours now message st).patterns) :=
  ⟨fun now ps k c habs => applySeqEntry_of_absent now ps k c habs,
   fun now ps k c m hocc hex => applySeqEntry_of_present now ps k c m hocc hex,
   fun getHours now message st h1 h2 => trackMessage_SeqInv getHours now message st ⟨h1, h2⟩⟩

/-- Witness for C5: creating from an empty store yields one `greeting→question`
record; updating a store holding one such record at 2 occurrences keeps its
signature count; and a `trackMessage` pass on a fresh tracker preserves both
sequential-pattern invariants. -/
theorem C5_witness :
    seqKeyCount (InteractionPatternTracker.applySeqEntry 4 [] "greeting→question" 2)
      "greeting→question" = 1 ∧
    seqKeyCount
        (InteractionPatternTracker.applySeqEntry 9 [seqWitnessPattern] "greeting→question" 3)
        "greeting→question"
      = seqKeyCount [seqWitnessPattern] "greeting→question" ∧
    SeqUnique (InteractionPatternTracker.trackMessage (fun _ => 0) 0
      ⟨"hi", "user", 0, [], [], none⟩ ⟨[], []⟩).patterns :=
  ⟨(C5_sequential_pattern_accumulation.1 4 [] "greeting→question" 2
      (fun p hp => absurd hp (List.not_mem_nil p))).1,
   (C5_sequential_pattern_accumulation.2.1 9 [seqWitnessPattern] "greeting→question" 3 2
      (fun p hp _ _ => by rw [List.mem_singleton] at hp; subst hp; rfl)
      ⟨seqWitnessPattern, List.mem_singleton.mpr rfl, rfl, rfl⟩).1,
   (C5_sequential_pattern_accumulation.2.2 (fun _ => 0) 0
      ⟨"hi", "user", 0, [], [], none⟩ ⟨[], []⟩ List.nodup_nil
      (fun p hp => absurd hp (List.not_mem_nil p))).1⟩
